import Mathlib

set_option maxRecDepth 100000

/-
Verification of the BrainSurgeon session-log engine (src/api/main.py).

The Python source manipulates parsed JSON values (dicts, lists, strings,
numbers).  We embed JSON values as the inductive type `Json` below, and a
parsed JSONL record ("entry") as its list of top-level key/value fields,
mirroring a Python dict with insertion order: lookups find the first
occurrence of a key, assignment replaces the value in place (keeping the
key's position) or appends a new key at the end, exactly as CPython dicts
behave.

Records are JSON objects throughout the source's data model (each line of a
session file is a tagged object), so entries are modelled as field lists.
-/

inductive Json where
  | null : Json
  | bool : Bool → Json
  | num : Int → Json
  | str : String → Json
  | arr : List Json → Json
  | obj : List (String × Json) → Json

/-- Python truthiness (`if x:`) for JSON values: `None`, `False`, `0`, `""`,
`[]`, `{}` are falsy, everything else truthy. -/
def Json.pyTruthy : Json → Bool
  | .null => false
  | .bool b => b
  | .num n => n != 0
  | .str s => !s.isEmpty
  | .arr xs => !xs.isEmpty
  | .obj kvs => !kvs.isEmpty

/-- Test whether a JSON value equals a given Python string (`x == "s"`).
Comparison of a non-string JSON value with a string is always `False` in
Python. -/
def Json.isStrEq : Json → String → Bool
  | .str t, s => t = s
  | _, _ => false

/-- A parsed JSONL record: the top-level fields of a JSON object, in
insertion order (CPython dict semantics). -/
abbrev Entry := List (String × Json)

/-- Dict lookup: first field with the given key. -/
def lookupKV (k : String) : Entry → Option Json
  | [] => none
  | (k1, v) :: rest => if k1 = k then some v else lookupKV k rest

/-- Python `d.get(k, default)`. -/
def getKV (k : String) (d : Json) (l : Entry) : Json :=
  (lookupKV k l).getD d

/-- Python `d[k] = v`: replace the value in place if the key exists
(keeping its position), otherwise append the new field at the end. -/
def setKV (k : String) (v : Json) : Entry → Entry
  | [] => [(k, v)]
  | (k1, v1) :: rest =>
    if k1 = k then (k1, v) :: rest else (k1, v1) :: setKV k v rest

/-- Python `j.get(k, default)` on a JSON value known to be used as a dict;
on a non-object the source would raise `AttributeError` — callers that can
reach that case in the source are modelled with `Except` instead of this
total helper. -/
def jget (j : Json) (k : String) (d : Json) : Json :=
  match j with
  | .obj kvs => getKV k d kvs
  | _ => d

/-- Python `j[k] = v` on a nested JSON object (no-op on non-objects, which
the source never reaches on the paths modelled with this helper). -/
def jset (j : Json) (k : String) (v : Json) : Json :=
  match j with
  | .obj kvs => .obj (setKV k v kvs)
  | _ => j

/- ### Prune Engine (src/api/main.py, `prune_session`, lines 1026-1170)

The engine reads every line of the session file into `entries`, computes
tool-related indices, redacts according to the mode chosen by
`keep_recent`, and rewrites the file with one JSON record per line.  We
embed the record-level transformation `entries -> (entries', pruned_count)`;
byte sizes in the HTTP result are the serialized sizes of these records.
-/

/-- The loop body at lines 1078-1084: for a `message` entry, every dict
content item of type `toolCall` sets `_has_tool_calls` on the entry, every
`toolResult` item sets `_has_tool_results` (in item order; these in-place
mutations are serialized by the rewrite). -/
def flagStep (entry : Entry) (item : Json) : Entry :=
  match item with
  | .obj kvs =>
    let e1 :=
      if (getKV "type" Json.null kvs).isStrEq "toolCall" then
        setKV "_has_tool_calls" (Json.bool true) entry
      else entry
    if (getKV "type" Json.null kvs).isStrEq "toolResult" then
      setKV "_has_tool_results" (Json.bool true) e1
    else e1
  | _ => entry

/-- Lines 1070-1084 restricted to one entry: the content-item flag marking
applied to `message` entries (non-message entries are untouched by it). -/
def markEntry (entry : Entry) : Entry :=
  if (getKV "type" (Json.str "") entry).isStrEq "message" then
    let msg := getKV "message" (Json.obj []) entry
    match jget msg "content" (Json.arr []) with
    | .arr items => items.foldl flagStep entry
    | _ => entry
  else entry

/-- Lines 1064-1074: an entry is appended to `tool_indices` iff its
top-level type is `tool` or `tool_result`, or it is a `message` whose role
is `tool` or `toolResult`. -/
def isToolIndex (entry : Entry) : Bool :=
  let t := getKV "type" (Json.str "") entry
  if t.isStrEq "tool" then true
  else if t.isStrEq "tool_result" then true
  else if t.isStrEq "message" then
    let role := jget (getKV "message" (Json.obj []) entry) "role" (Json.str "")
    role.isStrEq "tool" || role.isStrEq "toolResult"
  else false

/-- The list of tool-related indices, counting from `n`. -/
def toolIndicesFrom (n : Nat) : List Entry → List Nat
  | [] => []
  | e :: es =>
    if isToolIndex e then n :: toolIndicesFrom (n + 1) es
    else toolIndicesFrom (n + 1) es

/-- Python `l[-n:]`: the last `n` elements. -/
def lastN (n : Nat) (l : List Nat) : List Nat :=
  l.drop (l.length - n)

/-- Sequential in-place rewrite of the entry list with a running
`pruned_count`, indexing from `i`. -/
def mapCount (f : Nat → Entry → Entry × Nat) : Nat → List Entry → List Entry × Nat
  | _, [] => ([], 0)
  | i, e :: es =>
    let r := f i e
    let rest := mapCount f (i + 1) es
    (r.1 :: rest.1, r.2 + rest.2)

/-- Lines 1118-1125: a non-kept `tool` entry is redacted in place. -/
def redactTool (entry : Entry) : Entry :=
  setKV "_pruned_type" (Json.str "full")
    (setKV "_pruned" (Json.bool true)
      (setKV "name" (Json.str "[pruned]")
        (setKV "content" (Json.str "[pruned]")
          (setKV "type" (Json.str "tool") entry))))

/-- Lines 1126-1132: a non-kept `tool_result` entry is redacted in place. -/
def redactToolResult (entry : Entry) : Entry :=
  setKV "_pruned_type" (Json.str "full")
    (setKV "_pruned" (Json.bool true)
      (setKV "content" (Json.str "[pruned]")
        (setKV "type" (Json.str "tool_result") entry)))

/-- The synthetic replacement tool call written at line 1141. -/
def prunedToolCallStub : Json :=
  Json.obj [("_pruned", Json.bool true), ("type", Json.str "toolCall"),
    ("id", Json.str "[pruned]"), ("name", Json.str "[pruned]")]

/-- Lines 1138-1145: a non-kept assistant `message` with truthy
`tool_calls` has them replaced by the synthetic stub. -/
def redactAssistantToolCalls (entry : Entry) (msg : Json) : Entry :=
  setKV "_pruned_type" (Json.str "full")
    (setKV "_pruned" (Json.bool true)
      (setKV "message" (jset msg "tool_calls" (Json.arr [prunedToolCallStub])) entry))

/-- Lines 1148-1154: a non-kept `message` with role `toolResult` has its
content replaced. -/
def redactToolResultMessage (entry : Entry) (msg : Json) : Entry :=
  setKV "_pruned_type" (Json.str "full")
    (setKV "_pruned" (Json.bool true)
      (setKV "message" (jset msg "content" (Json.str "[pruned]")) entry))

/-- Lines 1114-1154, one step of the full-prune rewrite loop. -/
def fullPrune (to_keep : List Nat) (i : Nat) (entry : Entry) : Entry × Nat :=
  let entry_type := getKV "type" (Json.str "") entry
  if entry_type.isStrEq "tool" then
    if to_keep.contains i then (entry, 0) else (redactTool entry, 1)
  else if entry_type.isStrEq "tool_result" then
    if to_keep.contains i then (entry, 0) else (redactToolResult entry, 1)
  else if entry_type.isStrEq "message" then
    let msg := getKV "message" (Json.obj []) entry
    let role := jget msg "role" (Json.str "")
    if role.isStrEq "assistant" && (jget msg "tool_calls" Json.null).pyTruthy then
      if to_keep.contains i then (entry, 0) else (redactAssistantToolCalls entry msg, 1)
    else if role.isStrEq "toolResult" then
      if to_keep.contains i then (entry, 0) else (redactToolResultMessage entry msg, 1)
    else (entry, 0)
  else (entry, 0)

/-- Lines 1093-1104, one step of the light-prune loop (applied only when
the stale type gate passes, see `prune_session_entries`): an assistant
`message` whose content is a plain string longer than 5000 characters is
truncated to its first 500 characters plus a marker computed as
`len(content) - 5000` (the source's own arithmetic). -/
def lightPrune (entry : Entry) : Entry × Nat :=
  let msg := getKV "message" (Json.obj []) entry
  if (jget msg "role" Json.null).isStrEq "assistant" then
    match jget msg "content" (Json.str "") with
    | .str s =>
      if s.length > 5000 then
        let summary := s.take 500 ++ "\n\n[... " ++ toString (s.length - 5000) ++ " chars pruned ...]"
        (setKV "_pruned_type" (Json.str "light")
          (setKV "_pruned" (Json.bool true)
            (setKV "message" (jset msg "content" (Json.str summary)) entry)), 1)
      else (entry, 0)
    | _ => (entry, 0)
  else (entry, 0)

/-- The prune engine, lines 1050-1159, at the record level.

Mode selection (lines 1053-1059): `light_prune` iff `keep_recent == -1`;
otherwise `prune_mode = keep_recent if keep_recent > 0 else 3` — note the
source defaults `prune_mode` to 3 for every non-positive `keep_recent`,
including 0.

The light branch (lines 1087-1104) re-reads the loop variable `e` of the
earlier tool-index loop (line 1090: `entry_type = e.get("type", "")`), so
its per-entry type test actually tests the type of the LAST entry of the
file on every iteration; no entry is touched unless that last entry has
type `message`.  (With an empty file the stale variable is never
evaluated.)  We embed that stale-variable semantics directly. -/
def prune_session_entries (keep_recent : Int) (entries : List Entry) : List Entry × Nat :=
  let marked := entries.map markEntry
  let tool_indices := toolIndicesFrom 0 marked
  if keep_recent = -1 then
    match marked.getLast? with
    | none => (marked, 0)
    | some lastE =>
      if (getKV "type" (Json.str "") lastE).isStrEq "message" then
        mapCount (fun _ e => lightPrune e) 0 marked
      else (marked, 0)
  else
    let prune_mode : Int := if keep_recent > 0 then keep_recent else 3
    let to_keep : List Nat :=
      if prune_mode > 0 then lastN prune_mode.toNat tool_indices else []
    mapCount (fullPrune to_keep) 0 marked

/- ### Shape-preservation lemmas for the prune engine -/

/-- The top-level type tag of an entry, as the source reads it
(`entry.get("type", "")`). -/
def typeOf (e : Entry) : Json := getKV "type" (Json.str "") e

/- ### Concrete records used by the prune scenarios -/

/-- A top-level `tool_result` record with the given content string. -/
def toolResultRec (s : String) : Entry :=
  [("type", Json.str "tool_result"), ("content", Json.str s)]

/-- An assistant `message` record whose content is one plain string. -/
def assistantStrRec (s : String) : Entry :=
  [("type", Json.str "message"),
   ("message", Json.obj [("role", Json.str "assistant"), ("content", Json.str s)])]

/-- A 5001-character plain string (strictly longer than the 5000-character
light-prune threshold). -/
def longStr : String := String.mk (List.replicate 5001 'a')

/-- What the light prune writes for `longStr`: the first 500 characters
plus the source's marker, which reports `len(content) - 5000 = 1`
characters pruned although 4501 were removed. -/
def longStrTrunc : String :=
  String.mk (List.replicate 500 'a') ++ "\n\n[... " ++ "1" ++ " chars pruned ...]"

/-- The light-pruned form of `assistantStrRec longStr`. -/
def assistantLongPruned : Entry :=
  [("type", Json.str "message"),
   ("message", Json.obj [("role", Json.str "assistant"), ("content", Json.str longStrTrunc)]),
   ("_pruned", Json.bool true), ("_pruned_type", Json.str "light")]

/- ### Idempotence of the full prune (claim C3) -/

/-- A content item that the tool-index loop flags as a tool call. -/
def itemIsTC (item : Json) : Bool :=
  match item with
  | .obj kvs => (getKV "type" Json.null kvs).isStrEq "toolCall"
  | _ => false

/-- A content item that the tool-index loop flags as a tool result. -/
def itemIsTR (item : Json) : Bool :=
  match item with
  | .obj kvs => (getKV "type" Json.null kvs).isStrEq "toolResult"
  | _ => false

/- ### Record Parser (claim C5)

Both read loops strip each line and skip empty ones.  `analyze_jsonl`
(main.py:231-271) and the summary endpoint's read loop (main.py:669-677)
silently skip a line whose `json.loads` raises; `prune_session`
(main.py:1040-1048) and `edit_entry` (main.py:1187-1195) append the
placeholder record `{"_raw": line}` instead.  A raw line is modelled by
what `json.loads` does with it: blank, decodable to a record object, or
raising. -/

inductive SrcLine where
  | blank : SrcLine
  | ok : Entry → SrcLine
  | malformed : String → SrcLine

/-- The record a line decodes to, if it decodes. -/
def SrcLine.decoded : SrcLine → Option Entry
  | .blank => none
  | .ok e => some e
  | .malformed _ => none

/-- Number of non-empty lines in the raw file. -/
def nonBlankCount : List SrcLine → Nat
  | [] => 0
  | .blank :: rest => nonBlankCount rest
  | .ok _ :: rest => nonBlankCount rest + 1
  | .malformed _ :: rest => nonBlankCount rest + 1

/-- The read loop of `analyze_jsonl` / `get_session_summary`:
`except json.JSONDecodeError: continue` drops the line. -/
def analyzeParse : List SrcLine → List Entry
  | [] => []
  | .blank :: rest => analyzeParse rest
  | .ok e :: rest => e :: analyzeParse rest
  | .malformed _ :: rest => analyzeParse rest

/-- The read loop of `prune_session` / `edit_entry`:
`except: entries.append({"_raw": line})`. -/
def pruneParse : List SrcLine → List Entry
  | [] => []
  | .blank :: rest => pruneParse rest
  | .ok e :: rest => e :: pruneParse rest
  | .malformed raw :: rest => [("_raw", Json.str raw)] :: pruneParse rest

/- ### Session Analyzer (claim C6): `analyze_jsonl`, main.py:219-281 -/

/-- Value equality of Python-hashable JSON atoms, as used by set
membership.  Lists and dicts are unhashable (`set.add` raises in CPython),
so they never occur in a set; distinct atoms compare by value.  (CPython's
`True == 1` numeric-bool overlap does not arise for model ids, which are
strings.) -/
def Json.atomBeq : Json → Json → Bool
  | .null, .null => true
  | .bool a, .bool b => a == b
  | .num a, .num b => a == b
  | .str a, .str b => a == b
  | _, _ => false

/-- Python `models.add(model)` on a set, modelled charitably as the
insertion-ordered sequence of distinct additions: the real CPython set's
internal state is a function of exactly this sequence (adding an existing
element does not change the set), while its iteration order is hash- and
seed-dependent, not insertion order. -/
def addModel (models : List Json) (v : Json) : List Json :=
  if models.any (fun m => m.atomBeq v) then models else models ++ [v]

/-- Python `len()` on sized values.  A truthy unsized value makes CPython
raise `TypeError` at main.py:262; record shapes reaching that line carry a
list there. -/
def pyLenD : Json → Nat
  | .arr xs => xs.length
  | .str s => s.length
  | .obj kvs => kvs.length
  | _ => 0

structure AnalyzeAcc where
  messages : Nat
  tool_calls : Nat
  tool_outputs : Nat
  models : List Json

/-- One iteration of the `analyze_jsonl` entry loop (main.py:240-268), in
source order: message-role counters, model extraction, `toolCall` content
items, the `tool_calls` field, then the top-level `tool_call` /
`tool_result` / `tool` buckets. -/
def analyzeStep (acc : AnalyzeAcc) (entry : Entry) : AnalyzeAcc :=
  let entry_type := getKV "type" (Json.str "") entry
  if entry_type.isStrEq "message" then
    let msg := getKV "message" (Json.obj []) entry
    let role := jget msg "role" (Json.str "")
    let acc :=
      if role.isStrEq "user" || role.isStrEq "assistant" then
        { acc with messages := acc.messages + 1 }
      else acc
    let acc :=
      if role.isStrEq "toolResult" then
        { acc with tool_outputs := acc.tool_outputs + 1 }
      else acc
    let model := jget msg "model" Json.null
    let acc :=
      if model.pyTruthy then { acc with models := addModel acc.models model }
      else acc
    let content := jget msg "content" (Json.arr [])
    let acc :=
      match content with
      | .arr items =>
        { acc with tool_calls := acc.tool_calls +
            (items.filter (fun it => itemIsTC it)).length }
      | _ => acc
    let tc := jget msg "tool_calls" Json.null
    if tc.pyTruthy then { acc with tool_calls := acc.tool_calls + pyLenD tc }
    else acc
  else if entry_type.isStrEq "tool_call" then
    { acc with tool_calls := acc.tool_calls + 1 }
  else if entry_type.isStrEq "tool_result" then
    { acc with tool_outputs := acc.tool_outputs + 1 }
  else if entry_type.isStrEq "tool" then
    { acc with tool_outputs := acc.tool_outputs + 1 }
  else acc

def analyze_jsonl_entries (entries : List Entry) : AnalyzeAcc :=
  entries.foldl analyzeStep ⟨0, 0, 0, []⟩

/-- The source's "current model": `list(models)[-1] if models else None`
(main.py:280) — the final element of the set's iteration sequence, modelled
over the insertion-ordered dedup list. -/
def analyze_current_model (entries : List Entry) : Option Json :=
  (analyze_jsonl_entries entries).models.getLast?

/-- Modelled from the claim: the last `message.model` value encountered in
file order (the value the spec says "current model" equals). -/
def lastModelInFileOrder (entries : List Entry) : Option Json :=
  entries.foldl
    (fun acc entry =>
      if (getKV "type" (Json.str "") entry).isStrEq "message" then
        let model := jget (getKV "message" (Json.obj []) entry) "model" Json.null
        if model.pyTruthy then some model else acc
      else acc)
    none

/-- A `message` record carrying the given model id. -/
def messageModelRec (s : String) : Entry :=
  [("type", Json.str "message"),
   ("message", Json.obj [("role", Json.str "assistant"), ("model", Json.str s)])]

/- ### Character-list string primitives

Python string operations are embedded over the character list `s.data`, by
structural recursion, so that every closed theorem evaluates inside the
kernel.  Semantics match CPython on the ASCII data the source handles. -/

/-- Python `s.lower()` (ASCII). -/
def strLower (s : String) : String := String.mk (s.data.map Char.toLower)

/-- First list is a leading segment of the second. -/
def startsWithL : List Char → List Char → Bool
  | [], _ => true
  | _ :: _, [] => false
  | n :: ns, c :: cs => n = c && startsWithL ns cs

/-- Occurrence of `needle` anywhere in the haystack. -/
def occursIn (needle : List Char) : List Char → Bool
  | [] => startsWithL needle []
  | c :: cs => startsWithL needle (c :: cs) || occursIn needle cs

/-- Python `sub in s`. -/
def pyIn (sub s : String) : Bool := occursIn sub.data s.data

/-- Python `s[:n]` (character slicing). -/
def strTake (n : Nat) (s : String) : String := String.mk (s.data.take n)

/-- Python `s.strip()`. -/
def strTrim (s : String) : String :=
  String.mk (((s.data.dropWhile Char.isWhitespace).reverse.dropWhile
    Char.isWhitespace).reverse)

/-- Python `s.strip(chars)`. -/
def strStripChars (cs : List Char) (s : String) : String :=
  String.mk (((s.data.dropWhile (fun c => cs.contains c)).reverse.dropWhile
    (fun c => cs.contains c)).reverse)

/-- Split a character list on a separator predicate (keeping empty pieces,
like Python `str.split(sep)` for a one-character separator). -/
def splitPred (p : Char → Bool) : List Char → List (List Char)
  | [] => [[]]
  | x :: xs =>
    let r := splitPred p xs
    if p x then [] :: r
    else
      match r with
      | [] => [[x]]
      | y :: ys => (x :: y) :: ys

/-- Python `s.split('.')[0]`: the text before the first separator. -/
def beforeChar (c : Char) (s : String) : String :=
  String.mk (s.data.takeWhile (fun x => !(x = c)))

/-- Python `s.split(c)` for a one-character separator. -/
def strSplitChar (c : Char) (s : String) : List String :=
  (splitPred (fun x => x = c) s.data).map String.mk

/-- Python `s.split()` (whitespace split, empty pieces collapsed). -/
def pySplitWS (s : String) : List String :=
  ((splitPred Char.isWhitespace s.data).filter
    (fun w => !w.isEmpty)).map String.mk

/-- Python `c in s` for a single character. -/
def strHasChar (s : String) (c : Char) : Bool := s.data.contains c

/- ### Path-component sanitisation (claim C10): main.py:79-101 -/

/-- A character matched by the class `[a-zA-Z0-9_-]`. -/
def isAllowedChar (c : Char) : Bool :=
  (decide ('a' ≤ c) && decide (c ≤ 'z')) ||
  (decide ('A' ≤ c) && decide (c ≤ 'Z')) ||
  (decide ('0' ≤ c) && decide (c ≤ '9')) ||
  c = '_' || c = '-'

/-- Python `re.match(r'^[a-zA-Z0-9_-]+$', value)` as a Boolean.  In
Python's `re`, `$` matches at the end of the string OR just before one
trailing newline, so the pattern also accepts a valid non-empty body
followed by a single final newline. -/
def pyClassPlusDollarMatch (s : String) : Bool :=
  let core := match s.data.getLast? with
    | some c => if c = '\n' then String.mk s.data.dropLast else s
    | none => s
  !core.data.isEmpty && core.data.all isAllowedChar

/-- `sanitize_path_component` (main.py:79-101): empty value → HTTP 400;
regex mismatch → 400; any of '/', '\\', '.', NUL present → 400; otherwise
the value is returned and the endpoint proceeds to build the filesystem
path with it.  Every endpoint taking agent / session_id path parameters
calls this before touching the filesystem. -/
def sanitize_path_component (value : String) : Except Nat String :=
  if value.data.isEmpty then .error 400
  else if !(pyClassPlusDollarMatch value) then .error 400
  else if strHasChar value '/' || strHasChar value '\\' || strHasChar value '.' ||
      strHasChar value (Char.ofNat 0) then .error 400
  else .ok value

/- ### Trash restore: re-adding to the session index (claim C4)
     `restore_from_trash`, main.py:930-993 -/

/-- The minimal reconstructed index entry the restore path intends to
append (main.py:983-989), marked `restored: true`. -/
def restoredIndexEntry (session_id agent createdAt : String) : Json :=
  Json.obj [("sessionId", Json.str session_id),
    ("label", Json.str (strTake 8 session_id)),
    ("agentId", Json.str agent),
    ("createdAt", Json.str createdAt),
    ("restored", Json.bool true)]

/-- Python `any(s.get("sessionId") == session_id for s in sessions)` over
the values the iteration yields; `any` short-circuits on the first match,
and a yielded non-dict value raises `AttributeError` at `s.get`. -/
def anySessionIdEq (session_id : String) : List Json → Except String Bool
  | [] => .ok false
  | .obj kvs :: rest =>
    if (getKV "sessionId" Json.null kvs).isStrEq session_id then .ok true
    else anySessionIdEq session_id rest
  | _ :: _ => .error "AttributeError: get"

/-- The sessions.json re-registration step of `restore_from_trash`
(main.py:973-991), applied to the parsed index.  The code assumes the index
is a JSON LIST of session dicts (`for s in sessions`, `sessions.append`),
but every other component reads and writes it as a DICT keyed by session id
(`get_agent_sessions`, main.py:200-216; the delete cascade, main.py:858-885,
which rewrites it with `json.dump(data)`).  Iterating a dict yields its key
strings, so `s.get` raises `AttributeError` on a non-empty dict, and
`sessions.append` raises it on an empty one; a non-iterable value raises
`TypeError`.  The error propagates out of the endpoint as HTTP 500. -/
def restore_readd_index (sessionsJson : Json)
    (session_id agent createdAt : String) : Except String Json := do
  let elems ← match sessionsJson with
    | Json.obj kvs => pure (kvs.map (fun kv => Json.str kv.1))
    | Json.arr xs => pure xs
    | _ => throw "TypeError: not iterable"
  let ex ← anySessionIdEq session_id elems
  if ex then pure sessionsJson
  else
    match sessionsJson with
    | Json.arr xs =>
      pure (Json.arr (xs ++ [restoredIndexEntry session_id agent createdAt]))
    | _ => throw "AttributeError: append"

/- ### Summary Generator (claim C9): `generate_session_summary`,
     main.py:466-654, with `is_heartbeat_message`, main.py:444-464 -/

/-- The fixed heartbeat/noise indicator substrings (main.py:448-462).
They are matched against the LOWERCASED text, so the all-caps
"HEARTBEAT_OK" entry never matches by itself (its lowercase text is caught
by "heartbeat" anyway). -/
def heartbeat_indicators : List String :=
  ["heartbeat", "HEARTBEAT_OK", "checking token", "context compacted",
   "compacted (", "tokens:", "token count", "system: [", "[system]",
   "you\x27ve been rate limited", "rate limit", "compacting context",
   "continue on your open tasks"]

/-- `is_heartbeat_message` (main.py:444-464): empty/absent text counts as
noise; otherwise any indicator substring of the lowercased text. -/
def is_heartbeat_message (text : String) : Bool :=
  if text.data.isEmpty then true
  else heartbeat_indicators.any (fun ind => pyIn ind (strLower text))

/-- The action-verb keywords of main.py:566-567. -/
def action_keywords : List String :=
  ["implement", "build", "create", "fix", "add", "update",
   "deploy", "configure", "refactor", "integrate", "optimize"]

/-- The file-operation keywords of main.py:605. -/
def file_keywords : List String :=
  ["create", "write", "edit", "modify", "fix", "build"]

/-- The source-file extensions of main.py:610. -/
def source_exts : List String :=
  [".py", ".js", ".ts", ".html", ".css", ".json", ".md", ".yml", ".yaml",
   ".sh", ".txt"]

/-- The punctuation set of `word.strip('.,;:!?()[]{}')` at main.py:611. -/
def punctChars : List Char :=
  ['.', ',', ';', ':', '!', '?', '(', ')', '[', ']', Char.ofNat 123,
   Char.ofNat 125]

/-- Python set-of-strings `add`, insertion-ordered.  The embedding
restricts set members to strings: the record shapes the source sorts with
`sorted(...)` at main.py:635-638 carry string tool names / model ids /
file names (a mixed-type set would make `sorted` raise in CPython). -/
def addStrSet (l : List String) (s : String) : List String :=
  if l.contains s then l else l ++ [s]

/-- Running state of the summary dict built at main.py:472-489 plus the
loop locals that survive across iterations: `seen_topics` and — the
crux of claim C9 — `has_meaningful_content`, which is a plain function
local first assigned inside `if isinstance(content, list)` (main.py:542)
and read unconditionally at main.py:576; `none` models the unbound state
whose read raises `NameError`. -/
structure SummaryAcc where
  topics : List String
  tools_used : List String
  models_used : List String
  key_actions : List String
  user_requests : List String
  thinking_insights : List String
  errors : List String
  message_count : Nat
  user_messages : Nat
  meaningful_messages : Nat
  tool_calls : Nat
  has_git_commits : Bool
  files_created : List String
  files_modified : List String
  first_timestamp : Option Json
  last_timestamp : Option Json
  seen_topics : List String
  hmc : Option Bool

def initSummaryAcc : SummaryAcc :=
  ⟨[], [], [], [], [], [], [], 0, 0, 0, 0, false, [], [], none, none, [], none⟩

/-- `tc.get("name") or tc.get("function", {}).get("name")` (main.py:527):
`or` short-circuits on a truthy name; a non-dict `tc` or `function` value
raises `AttributeError`. -/
def tcName (tc : Json) : Except String Json :=
  match tc with
  | .obj kvs =>
    let n1 := getKV "name" Json.null kvs
    if n1.pyTruthy then pure n1
    else
      match getKV "function" (Json.obj []) kvs with
      | .obj fkvs => pure (getKV "name" Json.null fkvs)
      | _ => throw "AttributeError: get"
  | _ => throw "AttributeError: get"

/-- Add a truthy tool/model name to a string set; a truthy non-string
would make the final `sorted()` raise in CPython (see `addStrSet`). -/
def addTruthyName (l : List String) (name : Json) : Except String (List String) :=
  if name.pyTruthy then
    match name with
    | .str s => pure (addStrSet l s)
    | _ => throw "TypeError: unorderable set member"
  else pure l

/-- The OpenAI-format `tool_calls` block of the assistant branch
(main.py:524-529): count `len(tool_calls)` then collect tool names. -/
def assistantToolCallsBlock (acc : SummaryAcc) (tcV : Json) :
    Except String SummaryAcc := do
  if tcV.pyTruthy then
    let xs ← match tcV with
      | Json.arr xs => pure xs
      | _ => throw "TypeError: not iterable"
    let acc := { acc with tool_calls := acc.tool_calls + xs.length }
    xs.foldlM
      (fun acc tc => do
        let name ← tcName tc
        let tools ← addTruthyName acc.tools_used name
        pure { acc with tools_used := tools })
      acc
  else pure acc

/-- The OpenClaw-format `toolCall` content-item block of the assistant
branch (main.py:531-538); items are `isinstance(item, dict)`-guarded. -/
def assistantToolCallItems (acc : SummaryAcc) (content : Json) :
    Except String SummaryAcc := do
  match content with
  | Json.arr items =>
    items.foldlM
      (fun acc item =>
        match item with
        | Json.obj kvs =>
          if (getKV "type" Json.null kvs).isStrEq "toolCall" then do
            let acc := { acc with tool_calls := acc.tool_calls + 1 }
            let n1 := getKV "name" Json.null kvs
            let name :=
              if n1.pyTruthy then n1
              else
                match getKV "params" Json.null kvs with
                | Json.obj pkvs => getKV "tool" Json.null pkvs
                | _ => Json.null
            let tools ← addTruthyName acc.tools_used name
            pure { acc with tools_used := tools }
          else pure acc
        | _ => pure acc)
      acc
  | _ => pure acc

/-- One content item of the assistant thinking/text block
(main.py:543-574).  Note `item.get("type")` here is NOT dict-guarded, and
`has_meaningful_content` is set only on non-noise thinking (when longer
than 30 chars) or text items. -/
def assistantItem (acc : SummaryAcc) (item : Json) : Except String SummaryAcc :=
  match item with
  | .obj kvs =>
    let t := getKV "type" Json.null kvs
    if t.isStrEq "thinking" then
      let thV := getKV "thinking" (Json.str "") kvs
      match thV with
      | .str thinking =>
        if is_heartbeat_message thinking then pure acc
        else if thinking.length > 30 then
          let acc := { acc with hmc := some true }
          let lines := ((strSplitChar (Char.ofNat 10) thinking).map strTrim).filter
            (fun l => !l.data.isEmpty)
          pure ((lines.take 3).foldl
            (fun acc line =>
              if line.length > 20 && line.length < 200 then
                if acc.seen_topics.contains line then acc
                else { acc with
                  seen_topics := acc.seen_topics ++ [line],
                  thinking_insights := acc.thinking_insights ++ [line] }
              else acc)
            acc)
        else pure acc
      | _ => if thV.pyTruthy then throw "AttributeError: lower" else pure acc
    else if t.isStrEq "text" then
      let tV := getKV "text" (Json.str "") kvs
      match tV with
      | .str text =>
        if is_heartbeat_message text then pure acc
        else
          let acc := { acc with hmc := some true }
          if action_keywords.any (fun kw => pyIn kw (strLower text)) then
            let first_sentence := strTake 120 (beforeChar '.' text)
            if first_sentence.length > 20 then
              if acc.seen_topics.contains first_sentence then pure acc
              else pure { acc with
                seen_topics := acc.seen_topics ++ [first_sentence],
                key_actions := acc.key_actions ++ [first_sentence] }
            else pure acc
          else pure acc
      | _ => if tV.pyTruthy then throw "AttributeError: lower" else pure acc
    else pure acc
  | _ => throw "AttributeError: get"

/-- The error block of the assistant branch (main.py:580-583). -/
def assistantErrors (acc : SummaryAcc) (msg : Json) : Except String SummaryAcc :=
  if (jget msg "errorMessage" Json.null).pyTruthy ||
      (jget msg "stopReason" Json.null).isStrEq "error" then
    match jget msg "errorMessage" (Json.str "Unknown error") with
    | .str s =>
      if is_heartbeat_message s then pure acc
      else pure { acc with errors := acc.errors ++ [strTake 200 s] }
    | v => if v.pyTruthy then throw "AttributeError: lower" else pure acc
  else pure acc

/-- One text content item of the user branch (main.py:589-611):
non-noise text counts as meaningful, contributes a first-sentence request
(for 10 < len < 300) and scans for file paths when a file keyword occurs. -/
def userItem (acc : SummaryAcc) (item : Json) : Except String SummaryAcc :=
  match item with
  | .obj kvs =>
    if (getKV "type" Json.null kvs).isStrEq "text" then
      match getKV "text" (Json.str "") kvs with
      | .str text =>
        if is_heartbeat_message text then pure acc
        else
          let acc := { acc with
            meaningful_messages := acc.meaningful_messages + 1 }
          let acc :=
            if text.length > 10 && text.length < 300 then
              let first_sentence := strTake 150 (beforeChar '.' text)
              if acc.seen_topics.contains first_sentence then acc
              else { acc with
                seen_topics := acc.seen_topics ++ [first_sentence],
                user_requests := acc.user_requests ++ [first_sentence] }
            else acc
          if file_keywords.any (fun kw => pyIn kw (strLower text)) then
            pure ((pySplitWS text).foldl
              (fun acc word =>
                if strHasChar word '.' && strHasChar word '/' then
                  if source_exts.any (fun ext => pyIn ext word) then
                    { acc with files_created :=
                        addStrSet acc.files_created (strStripChars punctChars word) }
                  else acc
                else acc)
              acc)
          else pure acc
      | v => if v.pyTruthy then throw "AttributeError: lower" else pure acc
    else pure acc
  | _ => throw "AttributeError: get"

/-- One content item of the `tool_result` branch (main.py:617-621):
`text.lower()` is reached for every present "text" value, so a non-string
one raises. -/
def toolResultItem (acc : SummaryAcc) (item : Json) : Except String SummaryAcc :=
  match item with
  | .obj kvs =>
    if (getKV "type" Json.null kvs).isStrEq "text" then
      match getKV "text" (Json.str "") kvs with
      | .str text =>
        if pyIn "commit" (strLower text) &&
            (["created", "modified", "deleted"].any (fun kw => pyIn kw text)) then
          pure { acc with has_git_commits := true }
        else pure acc
      | _ => throw "AttributeError: lower"
    else pure acc
  | _ => throw "AttributeError: get"

/-- One iteration of the `generate_session_summary` entry loop
(main.py:495-621), in source order: timestamp tracking, the `custom`
short-circuit, the `message` branch (assistant / user), and the
`tool_result` git detection. -/
def summaryStep (acc : SummaryAcc) (entry : Entry) : Except String SummaryAcc := do
  let entry_type := getKV "type" (Json.str "") entry
  let ts := getKV "timestamp" Json.null entry
  let acc :=
    if ts.pyTruthy then
      { acc with
        first_timestamp :=
          if acc.first_timestamp.isNone then some ts else acc.first_timestamp,
        last_timestamp := some ts }
    else acc
  if entry_type.isStrEq "custom" then
    if (getKV "customType" (Json.str "") entry).isStrEq "model-snapshot" then
      match getKV "data" (Json.obj []) entry with
      | Json.obj dkvs => do
        let models ← addTruthyName acc.models_used (getKV "modelId" Json.null dkvs)
        pure { acc with models_used := models }
      | _ => throw "AttributeError: get"
    else pure acc
  else if entry_type.isStrEq "message" then do
    let acc := { acc with message_count := acc.message_count + 1 }
    match getKV "message" (Json.obj []) entry with
    | Json.obj mkvs => do
      let role := getKV "role" (Json.str "") mkvs
      let content := getKV "content" (Json.str "") mkvs
      if role.isStrEq "assistant" then do
        let acc ← assistantToolCallsBlock acc (getKV "tool_calls" Json.null mkvs)
        let acc ← assistantToolCallItems acc content
        let acc ←
          match content with
          | Json.arr items =>
            items.foldlM assistantItem { acc with hmc := some false }
          | _ => pure acc
        let acc ←
          match acc.hmc with
          | none => throw "NameError: name has_meaningful_content is not defined"
          | some b =>
            pure (if b then
              { acc with meaningful_messages := acc.meaningful_messages + 1 }
            else acc)
        assistantErrors acc (Json.obj mkvs)
      else if role.isStrEq "user" then do
        let acc := { acc with user_messages := acc.user_messages + 1 }
        match content with
        | Json.arr items => items.foldlM userItem acc
        | _ => pure acc
      else pure acc
    | _ => throw "AttributeError: get"
  else if entry_type.isStrEq "tool_result" then
    match getKV "content" (Json.str "") entry with
    | Json.arr items => items.foldlM toolResultItem acc
    | _ => pure acc
  else pure acc

/-- Ascending insertion into a sorted string list (Python `sorted`). -/
def insertSorted (s : String) : List String → List String
  | [] => [s]
  | x :: xs => if s < x then s :: x :: xs else x :: insertSorted s xs

/-- Python `sorted(...)` on strings (lexicographic). -/
def sortStrings : List String → List String
  | [] => []
  | x :: xs => insertSorted x (sortStrings xs)

/-- The outgoing summary dict after post-processing (main.py:634-654):
sorted and capped set fields, capped list fields, and the session-type
classification.  The `duration_estimate` computation (main.py:623-632) —
an ISO-8601 parse of the tracked first/last timestamps into fractional
minutes, `None` when either is missing or unparsable — is not replicated;
the timestamps it would consume are tracked faithfully in `SummaryAcc`
and no claim depends on the converted value. -/
structure SummaryOut where
  session_type : String
  topics : List String
  tools_used : List String
  models_used : List String
  key_actions : List String
  user_requests : List String
  thinking_insights : List String
  errors : List String
  message_count : Nat
  user_messages : Nat
  meaningful_messages : Nat
  tool_calls : Nat
  has_git_commits : Bool
  files_created : List String
  files_modified : List String

def finalizeSummary (acc : SummaryAcc) : SummaryOut :=
  { session_type :=
      if acc.has_git_commits then "development"
      else if acc.tool_calls > 5 then "tool_heavy"
      else if acc.meaningful_messages > 30 then "long_chat"
      else "chat"
    topics := acc.topics
    tools_used := (sortStrings acc.tools_used).take 15
    models_used := sortStrings acc.models_used
    key_actions := acc.key_actions.take 5
    user_requests := acc.user_requests.take 5
    thinking_insights := acc.thinking_insights.take 5
    errors := acc.errors.take 3
    message_count := acc.message_count
    user_messages := acc.user_messages
    meaningful_messages := acc.meaningful_messages
    tool_calls := acc.tool_calls
    has_git_commits := acc.has_git_commits
    files_created := (sortStrings acc.files_created).take 8
    files_modified := (sortStrings acc.files_modified).take 8 }

def generate_session_summary (entries : List Entry) :
    Except String SummaryOut := do
  let acc ← entries.foldlM summaryStep initSummaryAcc
  pure (finalizeSummary acc)

/-- An assistant message whose content is one plain heartbeat string. -/
def assistantHeartbeatStr : Entry :=
  [("type", Json.str "message"),
   ("message", Json.obj [("role", Json.str "assistant"),
     ("content", Json.str "HEARTBEAT_OK")])]

/-- An assistant message whose content is a list with one heartbeat text
item. -/
def assistantHeartbeatList : Entry :=
  [("type", Json.str "message"),
   ("message", Json.obj [("role", Json.str "assistant"),
     ("content", Json.arr [Json.obj [("type", Json.str "text"),
       ("text", Json.str "HEARTBEAT_OK ping")]])])]

/-- A user message whose content is a list with one rate-limit text item. -/
def userHeartbeatList : Entry :=
  [("type", Json.str "message"),
   ("message", Json.obj [("role", Json.str "user"),
     ("content", Json.arr [Json.obj [("type", Json.str "text"),
       ("text", Json.str "You have been rate limited")]])])]

/-- A user message whose content is one plain heartbeat string. -/
def userHeartbeatStr : Entry :=
  [("type", Json.str "message"),
   ("message", Json.obj [("role", Json.str "user"),
     ("content", Json.str "heartbeat check")])]

/- ### Assoc-list lemmas used throughout -/

theorem lookupKV_setKV_self (k : String) (v : Json) (l : Entry) :
    lookupKV k (setKV k v l) = some v := by
  induction l with
  | nil => simp [setKV, lookupKV]
  | cons hd tl ih =>
    obtain ⟨k1, v1⟩ := hd
    by_cases h : k1 = k <;> simp [setKV, lookupKV, h, ih]

theorem lookupKV_setKV_ne (k k2 : String) (v : Json) (l : Entry)
    (h : k2 ≠ k) : lookupKV k2 (setKV k v l) = lookupKV k2 l := by
  induction l with
  | nil => simp [setKV, lookupKV, Ne.symm h]
  | cons hd tl ih =>
    obtain ⟨k1, v1⟩ := hd
    by_cases h1 : k1 = k
    · subst h1
      simp [setKV, lookupKV, Ne.symm h]
    · simp [setKV, lookupKV, h1, ih]

theorem setKV_of_lookup_eq (k : String) (v : Json) (l : Entry)
    (h : lookupKV k l = some v) : setKV k v l = l := by
  induction l with
  | nil => simp [lookupKV] at h
  | cons hd tl ih =>
    obtain ⟨k1, v1⟩ := hd
    by_cases h1 : k1 = k
    · subst h1
      simp [lookupKV] at h
      simp [setKV, h]
    · simp [lookupKV, h1] at h
      simp [setKV, h1, ih h]

theorem getKV_setKV_self (k : String) (v d : Json) (l : Entry) :
    getKV k d (setKV k v l) = v := by
  simp [getKV, lookupKV_setKV_self]

theorem getKV_setKV_ne (k k2 : String) (v d : Json) (l : Entry)
    (h : k2 ≠ k) : getKV k2 d (setKV k v l) = getKV k2 d l := by
  simp [getKV, lookupKV_setKV_ne _ _ _ _ h]

theorem jget_jset_ne (j : Json) (k k2 : String) (v d : Json) (h : k2 ≠ k) :
    jget (jset j k v) k2 d = jget j k2 d := by
  cases j <;> simp [jget, jset]
  exact getKV_setKV_ne _ _ _ _ _ h

theorem jget_jset_self (j : Json) (k : String) (v d : Json) :
    (∃ kvs, j = Json.obj kvs) → jget (jset j k v) k d = v := by
  rintro ⟨kvs, rfl⟩
  simp [jget, jset, getKV_setKV_self]

theorem Json.isStrEq_iff (j : Json) (s : String) :
    j.isStrEq s = true ↔ j = Json.str s := by
  cases j <;> simp [Json.isStrEq]

theorem typeOf_flagStep (e : Entry) (item : Json) :
    typeOf (flagStep e item) = typeOf e := by
  cases item <;> simp only [flagStep]
  case obj kvs =>
    split <;> split <;> simp [typeOf, getKV_setKV_ne]

theorem typeOf_foldl_flagStep (items : List Json) (e : Entry) :
    typeOf (items.foldl flagStep e) = typeOf e := by
  induction items generalizing e with
  | nil => rfl
  | cons item items ih => simp [ih, typeOf_flagStep]

theorem typeOf_markEntry (e : Entry) : typeOf (markEntry e) = typeOf e := by
  simp only [markEntry]
  split
  · split
    · exact typeOf_foldl_flagStep _ _
    · rfl
  · rfl

theorem typeOf_redactTool (e : Entry) :
    typeOf (redactTool e) = Json.str "tool" := by
  simp [redactTool, typeOf, getKV_setKV_ne, getKV_setKV_self]

theorem typeOf_redactToolResult (e : Entry) :
    typeOf (redactToolResult e) = Json.str "tool_result" := by
  simp [redactToolResult, typeOf, getKV_setKV_ne, getKV_setKV_self]

theorem typeOf_redactAssistantToolCalls (e : Entry) (msg : Json) :
    typeOf (redactAssistantToolCalls e msg) = typeOf e := by
  simp [redactAssistantToolCalls, typeOf, getKV_setKV_ne]

theorem typeOf_redactToolResultMessage (e : Entry) (msg : Json) :
    typeOf (redactToolResultMessage e msg) = typeOf e := by
  simp [redactToolResultMessage, typeOf, getKV_setKV_ne]

theorem typeOf_fullPrune (K : List Nat) (i : Nat) (e : Entry) :
    typeOf (fullPrune K i e).1 = typeOf e := by
  simp only [fullPrune]
  split
  next h =>
    split
    · rfl
    · rw [Json.isStrEq_iff] at h
      rw [typeOf_redactTool]
      exact h.symm
  next =>
    split
    next h =>
      split
      · rfl
      · rw [Json.isStrEq_iff] at h
        rw [typeOf_redactToolResult]
        exact h.symm
    next =>
      split
      next =>
        split
        · split
          · rfl
          · exact typeOf_redactAssistantToolCalls _ _
        · split
          · split
            · rfl
            · exact typeOf_redactToolResultMessage _ _
          · rfl
      next => rfl

theorem typeOf_lightPrune (e : Entry) : typeOf (lightPrune e).1 = typeOf e := by
  simp only [lightPrune]
  split
  · split
    · split
      · simp [typeOf, getKV_setKV_ne]
      · rfl
    · rfl
  · rfl

theorem mapCount_length (f : Nat → Entry → Entry × Nat) (n : Nat)
    (es : List Entry) : (mapCount f n es).1.length = es.length := by
  induction es generalizing n with
  | nil => rfl
  | cons e es ih => simp [mapCount, ih]

theorem mapCount_getD_typeOf (f : Nat → Entry → Entry × Nat)
    (hf : ∀ i e, typeOf (f i e).1 = typeOf e) (n j : Nat) (es : List Entry) :
    typeOf ((mapCount f n es).1.getD j []) = typeOf (es.getD j []) := by
  induction es generalizing n j with
  | nil => simp [mapCount]
  | cons e es ih =>
    cases j with
    | zero => simp [mapCount, hf]
    | succ j2 => simpa [mapCount] using ih (n + 1) j2

theorem map_getD_typeOf (f : Entry → Entry) (hf : ∀ e, typeOf (f e) = typeOf e)
    (es : List Entry) (j : Nat) :
    typeOf ((es.map f).getD j []) = typeOf (es.getD j []) := by
  induction es generalizing j with
  | nil => simp
  | cons e es ih =>
    cases j with
    | zero => simp [hf]
    | succ j2 => simpa using ih j2

/-- C8: for every session file and every prune mode, the prune rewrite
never deletes records: the rewritten entry list has the same length as the
parsed one, and the entry at each position keeps its top-level `type` tag
(payload replacement only, no reordering). -/
theorem c8_prune_is_count_preserving (keep_recent : Int) (entries : List Entry)
    (j : Nat) :
    (prune_session_entries keep_recent entries).1.length = entries.length ∧
    typeOf ((prune_session_entries keep_recent entries).1.getD j []) =
      typeOf (entries.getD j []) := by
  simp only [prune_session_entries]
  split
  · split
    · constructor
      · simp
      · exact map_getD_typeOf _ typeOf_markEntry _ _
    · split
      · constructor
        · rw [mapCount_length]; simp
        · rw [mapCount_getD_typeOf _ (fun i e => typeOf_lightPrune e)]
          exact map_getD_typeOf _ typeOf_markEntry _ _
      · constructor
        · simp
        · exact map_getD_typeOf _ typeOf_markEntry _ _
  · constructor
    · rw [mapCount_length]; simp
    · rw [mapCount_getD_typeOf _ (typeOf_fullPrune _)]
      exact map_getD_typeOf _ typeOf_markEntry _ _

theorem longStr_len : longStr.length = 5001 := by
  show (List.replicate 5001 'a').length = 5001
  rw [List.length_replicate]

theorem longStr_take : longStr.take 500 = String.mk (List.replicate 500 'a') := by
  rw [String.take_eq]
  show String.mk ((List.replicate 5001 'a').take 500) = _
  rw [List.take_replicate]
  norm_num

/-- C1 (code bug): pruning with `keep_recent = 0` does not redact every
tool-related record.  The source computes
`prune_mode = keep_recent if keep_recent > 0 else 3` (line 1058), so
`keep_recent == 0` behaves exactly like `keep_recent == 3`: with a single
`tool_result` record nothing is redacted and `entries_pruned = 0`, and with
four such records only the first is redacted — contradicting the claim
(and the source's own comment "keep_recent = 0 means remove ALL tool
content", line 1055). -/
theorem c1_keep_recent_zero_keeps_recent_tools :
    prune_session_entries 0 [toolResultRec "kept verbatim"] =
      ([toolResultRec "kept verbatim"], 0) ∧
    isToolIndex (toolResultRec "kept verbatim") = true ∧
    prune_session_entries 0 [toolResultRec "a", toolResultRec "b",
        toolResultRec "c", toolResultRec "d"] =
      ([redactToolResult (toolResultRec "a"), toolResultRec "b",
        toolResultRec "c", toolResultRec "d"], 1) := by
  refine ⟨rfl, rfl, rfl⟩

/-- C2 (code bug): the light prune (`keep_recent == -1`) reads the record
type from the stale loop variable `e` of the preceding tool-index loop
(line 1090), i.e. from the file's last record.  With a file
`[oversized assistant message, tool_result]` nothing at all is pruned
(`entries_pruned = 0`, both records unchanged), although the claim requires
the oversized assistant message to be truncated regardless of what other
record types appear.  When the last record is a message the truncation does
fire, and writes a marker claiming `len - 5000 = 1` characters were pruned
although `len - 500 = 4501` were removed. -/
theorem lightPrune_assistantLong :
    lightPrune (assistantStrRec longStr) = (assistantLongPruned, 1) := by
  have h1 : toString ((1 : Nat)) = "1" := rfl
  simp [lightPrune, assistantStrRec, assistantLongPruned, longStrTrunc,
    getKV, lookupKV, jget, jset, setKV, Json.isStrEq, longStr_len, longStr_take, h1]

theorem mapCount_singleton (f : Nat → Entry → Entry × Nat) (i : Nat) (e : Entry) :
    mapCount f i [e] = ([(f i e).1], (f i e).2 + 0) := rfl

theorem prune_light_gate (entries : List Entry) (lastE : Entry)
    (h : (entries.map markEntry).getLast? = some lastE)
    (hmsg : (getKV "type" (Json.str "") lastE).isStrEq "message" = true) :
    prune_session_entries (-1) entries =
      mapCount (fun _ e => lightPrune e) 0 (entries.map markEntry) := by
  simp only [prune_session_entries, if_pos]
  rw [h]
  simp only [hmsg, if_true]

theorem c2_light_prune_uses_stale_record_type :
    prune_session_entries (-1) [assistantStrRec longStr, toolResultRec "ok"] =
      ([assistantStrRec longStr, toolResultRec "ok"], 0) ∧
    longStr.length = 5001 ∧
    prune_session_entries (-1) [assistantStrRec longStr] =
      ([assistantLongPruned], 1) ∧
    (longStr.length - 500) = 4501 := by
  refine ⟨rfl, longStr_len, ?_, by rw [longStr_len]⟩
  have hmap : List.map markEntry [assistantStrRec longStr] = [assistantStrRec longStr] := rfl
  rw [prune_light_gate [assistantStrRec longStr] (assistantStrRec longStr)
      (by rw [hmap]; rfl) rfl,
    hmap, mapCount_singleton, lightPrune_assistantLong]

/-- C3 counterexample: running the full prune twice with the same
`keep_recent = 1` on a two-`tool_result` session reports
`entries_pruned = 1` on the second run as well, not 0: the redaction loop
counts every non-kept tool record again even though it is already redacted. -/
theorem c3_second_full_prune_counts_again :
    (prune_session_entries 1 (prune_session_entries 1
        [toolResultRec "first", toolResultRec "second"]).1).2 = 1 ∧
    (prune_session_entries 1 (prune_session_entries 1
        [toolResultRec "first", toolResultRec "second"]).1).2 ≠ 0 := by
  refine ⟨rfl, by decide⟩

theorem itemIsTC_not_TR (item : Json) (h : itemIsTC item = true) :
    itemIsTR item = false := by
  cases item <;> simp_all [itemIsTC, itemIsTR, Json.isStrEq_iff]
  simp [*, Json.isStrEq]

theorem flagStep_eq (e : Entry) (item : Json) :
    flagStep e item =
      (let e1 := if itemIsTC item then setKV "_has_tool_calls" (Json.bool true) e else e
       if itemIsTR item then setKV "_has_tool_results" (Json.bool true) e1 else e1) := by
  cases item <;> simp [flagStep, itemIsTC, itemIsTR]

theorem lookup_foldl_flagStep_tc (items : List Json) (e : Entry) :
    lookupKV "_has_tool_calls" (items.foldl flagStep e) =
      if items.any itemIsTC then some (Json.bool true)
      else lookupKV "_has_tool_calls" e := by
  induction items generalizing e with
  | nil => simp
  | cons item items ih =>
    simp only [List.foldl_cons, List.any_cons, ih, flagStep_eq]
    by_cases h1 : itemIsTC item = true
    · have h2 := itemIsTC_not_TR item h1
      simp only [h1, h2, if_true, if_false, Bool.true_or]
      by_cases h3 : items.any itemIsTC = true <;>
        simp [h3, lookupKV_setKV_self]
    · simp only [h1]
      by_cases h2 : itemIsTR item = true <;>
        by_cases h3 : items.any itemIsTC = true <;>
          simp [h1, h2, h3, lookupKV_setKV_ne]

theorem lookup_foldl_flagStep_tr (items : List Json) (e : Entry) :
    lookupKV "_has_tool_results" (items.foldl flagStep e) =
      if items.any itemIsTR then some (Json.bool true)
      else lookupKV "_has_tool_results" e := by
  induction items generalizing e with
  | nil => simp
  | cons item items ih =>
    simp only [List.foldl_cons, List.any_cons, ih, flagStep_eq]
    by_cases h2 : itemIsTR item = true
    · simp only [h2, if_true, Bool.true_or]
      by_cases h1 : itemIsTC item = true <;>
        by_cases h3 : items.any itemIsTR = true <;>
          simp [h1, h3, lookupKV_setKV_self]
    · simp only [h2]
      by_cases h1 : itemIsTC item = true <;>
        by_cases h3 : items.any itemIsTR = true <;>
          simp [h1, h2, h3, lookupKV_setKV_ne]

theorem lookup_foldl_flagStep_other (items : List Json) (e : Entry) (k : String)
    (h1 : k ≠ "_has_tool_calls") (h2 : k ≠ "_has_tool_results") :
    lookupKV k (items.foldl flagStep e) = lookupKV k e := by
  induction items generalizing e with
  | nil => rfl
  | cons item items ih =>
    simp only [List.foldl_cons, ih, flagStep_eq]
    by_cases ha : itemIsTC item = true <;> by_cases hb : itemIsTR item = true <;>
      simp [ha, hb, lookupKV_setKV_ne _ _ _ _ h1, lookupKV_setKV_ne _ _ _ _ h2]

theorem foldl_flagStep_eq_self (items : List Json) (e : Entry)
    (h1 : items.any itemIsTC = true →
      lookupKV "_has_tool_calls" e = some (Json.bool true))
    (h2 : items.any itemIsTR = true →
      lookupKV "_has_tool_results" e = some (Json.bool true)) :
    items.foldl flagStep e = e := by
  induction items generalizing e with
  | nil => rfl
  | cons item items ih =>
    simp only [List.foldl_cons, flagStep_eq]
    by_cases ha : itemIsTC item = true
    · have hb := itemIsTC_not_TR item ha
      have he : setKV "_has_tool_calls" (Json.bool true) e = e :=
        setKV_of_lookup_eq _ _ _ (h1 (by simp [ha]))
      simp only [ha, hb, if_true, Bool.false_eq_true, if_false, he]
      exact ih e (fun h => h1 (by simp [h])) (fun h => h2 (by simp [h]))
    · by_cases hb : itemIsTR item = true
      · have he : setKV "_has_tool_results" (Json.bool true) e = e :=
          setKV_of_lookup_eq _ _ _ (h2 (by simp [hb]))
        simp [ha, hb, he]
        exact ih e (fun h => h1 (by simp [h])) (fun h => h2 (by simp [h]))
      · simp [ha, hb]
        exact ih e (fun h => h1 (by simp [h])) (fun h => h2 (by simp [h]))

theorem markEntry_not_message (e : Entry)
    (h : (getKV "type" (Json.str "") e).isStrEq "message" = false) :
    markEntry e = e := by
  simp [markEntry, h]

theorem markEntry_arr (e : Entry) (items : List Json)
    (h : (getKV "type" (Json.str "") e).isStrEq "message" = true)
    (hc : jget (getKV "message" (Json.obj []) e) "content" (Json.arr []) =
      Json.arr items) :
    markEntry e = items.foldl flagStep e := by
  simp [markEntry, h, hc]

/-- Marking is idempotent: a second pass sets the same flags to the same
values. -/
theorem markEntry_markEntry (e : Entry) : markEntry (markEntry e) = markEntry e := by
  by_cases h : (getKV "type" (Json.str "") e).isStrEq "message" = true
  · have harr : ∀ items,
        jget (getKV "message" (Json.obj []) e) "content" (Json.arr []) =
          Json.arr items →
        markEntry (markEntry e) = markEntry e := by
      intro items hc
      have hm := markEntry_arr e items h hc
      rw [hm]
      have htype : getKV "type" (Json.str "") (items.foldl flagStep e) =
          getKV "type" (Json.str "") e := by
        simp [getKV, lookup_foldl_flagStep_other]
      have hmsg : getKV "message" (Json.obj []) (items.foldl flagStep e) =
          getKV "message" (Json.obj []) e := by
        simp [getKV, lookup_foldl_flagStep_other]
      have h2 : (getKV "type" (Json.str "") (items.foldl flagStep e)).isStrEq
          "message" = true := by
        rw [htype]; exact h
      have hc2 : jget (getKV "message" (Json.obj []) (items.foldl flagStep e))
          "content" (Json.arr []) = Json.arr items := by
        rw [hmsg]; exact hc
      rw [markEntry_arr _ items h2 hc2]
      refine foldl_flagStep_eq_self items _ ?_ ?_
      · intro ha
        rw [lookup_foldl_flagStep_tc, if_pos ha]
      · intro ha
        rw [lookup_foldl_flagStep_tr, if_pos ha]
    rcases hc : jget (getKV "message" (Json.obj []) e) "content" (Json.arr []) with
      _ | b | n | s | items | kvs
    · have hm : markEntry e = e := by simp [markEntry, h, hc]
      rw [hm]; exact hm
    · have hm : markEntry e = e := by simp [markEntry, h, hc]
      rw [hm]; exact hm
    · have hm : markEntry e = e := by simp [markEntry, h, hc]
      rw [hm]; exact hm
    · have hm : markEntry e = e := by simp [markEntry, h, hc]
      rw [hm]; exact hm
    · exact harr items hc
    · have hm : markEntry e = e := by simp [markEntry, h, hc]
      rw [hm]; exact hm
  · have he := markEntry_not_message e (by simpa using h)
    rw [he]
    exact he

/- ### Branch equations for `fullPrune` -/

theorem fullPrune_tool (K : List Nat) (i : Nat) (e : Entry)
    (h : (getKV "type" (Json.str "") e).isStrEq "tool" = true) :
    fullPrune K i e =
      if K.contains i then (e, 0) else (redactTool e, 1) := by
  simp [fullPrune, h]

theorem fullPrune_tool_result (K : List Nat) (i : Nat) (e : Entry)
    (h1 : (getKV "type" (Json.str "") e).isStrEq "tool" = false)
    (h2 : (getKV "type" (Json.str "") e).isStrEq "tool_result" = true) :
    fullPrune K i e =
      if K.contains i then (e, 0) else (redactToolResult e, 1) := by
  simp [fullPrune, h1, h2]

theorem fullPrune_message_assistant (K : List Nat) (i : Nat) (e : Entry)
    (h1 : (getKV "type" (Json.str "") e).isStrEq "tool" = false)
    (h2 : (getKV "type" (Json.str "") e).isStrEq "tool_result" = false)
    (h3 : (getKV "type" (Json.str "") e).isStrEq "message" = true)
    (hc : ((jget (getKV "message" (Json.obj []) e) "role" (Json.str "")).isStrEq
        "assistant" &&
      (jget (getKV "message" (Json.obj []) e) "tool_calls" Json.null).pyTruthy) =
        true) :
    fullPrune K i e =
      if K.contains i then (e, 0)
      else (redactAssistantToolCalls e (getKV "message" (Json.obj []) e), 1) := by
  simp [fullPrune, h1, h2, h3, hc]

theorem fullPrune_message_toolResult (K : List Nat) (i : Nat) (e : Entry)
    (h1 : (getKV "type" (Json.str "") e).isStrEq "tool" = false)
    (h2 : (getKV "type" (Json.str "") e).isStrEq "tool_result" = false)
    (h3 : (getKV "type" (Json.str "") e).isStrEq "message" = true)
    (hc : ((jget (getKV "message" (Json.obj []) e) "role" (Json.str "")).isStrEq
        "assistant" &&
      (jget (getKV "message" (Json.obj []) e) "tool_calls" Json.null).pyTruthy) =
        false)
    (hr : (jget (getKV "message" (Json.obj []) e) "role" (Json.str "")).isStrEq
        "toolResult" = true) :
    fullPrune K i e =
      if K.contains i then (e, 0)
      else (redactToolResultMessage e (getKV "message" (Json.obj []) e), 1) := by
  simp [fullPrune, h1, h2, h3, hc, hr]

theorem fullPrune_message_other (K : List Nat) (i : Nat) (e : Entry)
    (h1 : (getKV "type" (Json.str "") e).isStrEq "tool" = false)
    (h2 : (getKV "type" (Json.str "") e).isStrEq "tool_result" = false)
    (h3 : (getKV "type" (Json.str "") e).isStrEq "message" = true)
    (hc : ((jget (getKV "message" (Json.obj []) e) "role" (Json.str "")).isStrEq
        "assistant" &&
      (jget (getKV "message" (Json.obj []) e) "tool_calls" Json.null).pyTruthy) =
        false)
    (hr : (jget (getKV "message" (Json.obj []) e) "role" (Json.str "")).isStrEq
        "toolResult" = false) :
    fullPrune K i e = (e, 0) := by
  simp [fullPrune, h1, h2, h3, hc, hr]

theorem fullPrune_other (K : List Nat) (i : Nat) (e : Entry)
    (h1 : (getKV "type" (Json.str "") e).isStrEq "tool" = false)
    (h2 : (getKV "type" (Json.str "") e).isStrEq "tool_result" = false)
    (h3 : (getKV "type" (Json.str "") e).isStrEq "message" = false) :
    fullPrune K i e = (e, 0) := by
  simp [fullPrune, h1, h2, h3]

/- ### Lookup facts about the redacted forms -/

theorem getKV_message_redactAssistant (e : Entry) (msg : Json) :
    getKV "message" (Json.obj []) (redactAssistantToolCalls e msg) =
      jset msg "tool_calls" (Json.arr [prunedToolCallStub]) := by
  simp [redactAssistantToolCalls, getKV_setKV_ne, getKV_setKV_self]

theorem getKV_message_redactToolResultMessage (e : Entry) (msg : Json) :
    getKV "message" (Json.obj []) (redactToolResultMessage e msg) =
      jset msg "content" (Json.str "[pruned]") := by
  simp [redactToolResultMessage, getKV_setKV_ne, getKV_setKV_self]

theorem jset_jset_same (kvs : List (String × Json)) (k : String) (v : Json) :
    jset (jset (Json.obj kvs) k v) k v = jset (Json.obj kvs) k v := by
  simp [jset, setKV_of_lookup_eq _ _ _ (lookupKV_setKV_self k v kvs)]

theorem pyTruthy_jget_obj (msg : Json) (k : String)
    (h : (jget msg k Json.null).pyTruthy = true) :
    ∃ kvs, msg = Json.obj kvs := by
  cases msg <;> simp_all [jget, Json.pyTruthy]

/- ### Idempotence of the redacted forms -/

theorem redactTool_idem (e : Entry) : redactTool (redactTool e) = redactTool e := by
  have l1 : lookupKV "type" (redactTool e) = some (Json.str "tool") := by
    simp [redactTool, lookupKV_setKV_ne, lookupKV_setKV_self]
  have l2 : lookupKV "content" (redactTool e) = some (Json.str "[pruned]") := by
    simp [redactTool, lookupKV_setKV_ne, lookupKV_setKV_self]
  have l3 : lookupKV "name" (redactTool e) = some (Json.str "[pruned]") := by
    simp [redactTool, lookupKV_setKV_ne, lookupKV_setKV_self]
  have l4 : lookupKV "_pruned" (redactTool e) = some (Json.bool true) := by
    simp [redactTool, lookupKV_setKV_ne, lookupKV_setKV_self]
  have l5 : lookupKV "_pruned_type" (redactTool e) = some (Json.str "full") := by
    simp [redactTool, lookupKV_setKV_self]
  conv_lhs => rw [redactTool]
  rw [setKV_of_lookup_eq _ _ _ l1, setKV_of_lookup_eq _ _ _ l2,
    setKV_of_lookup_eq _ _ _ l3, setKV_of_lookup_eq _ _ _ l4,
    setKV_of_lookup_eq _ _ _ l5]

theorem redactToolResult_idem (e : Entry) :
    redactToolResult (redactToolResult e) = redactToolResult e := by
  have l1 : lookupKV "type" (redactToolResult e) = some (Json.str "tool_result") := by
    simp [redactToolResult, lookupKV_setKV_ne, lookupKV_setKV_self]
  have l2 : lookupKV "content" (redactToolResult e) = some (Json.str "[pruned]") := by
    simp [redactToolResult, lookupKV_setKV_ne, lookupKV_setKV_self]
  have l4 : lookupKV "_pruned" (redactToolResult e) = some (Json.bool true) := by
    simp [redactToolResult, lookupKV_setKV_ne, lookupKV_setKV_self]
  have l5 : lookupKV "_pruned_type" (redactToolResult e) = some (Json.str "full") := by
    simp [redactToolResult, lookupKV_setKV_self]
  conv_lhs => rw [redactToolResult]
  rw [setKV_of_lookup_eq _ _ _ l1, setKV_of_lookup_eq _ _ _ l2,
    setKV_of_lookup_eq _ _ _ l4, setKV_of_lookup_eq _ _ _ l5]

theorem redactAssistant_idem (e : Entry) (kvs : List (String × Json)) :
    redactAssistantToolCalls (redactAssistantToolCalls e (Json.obj kvs))
      (getKV "message" (Json.obj [])
        (redactAssistantToolCalls e (Json.obj kvs))) =
    redactAssistantToolCalls e (Json.obj kvs) := by
  rw [getKV_message_redactAssistant]
  have lmsg : lookupKV "message" (redactAssistantToolCalls e (Json.obj kvs)) =
      some (jset (Json.obj kvs) "tool_calls" (Json.arr [prunedToolCallStub])) := by
    simp [redactAssistantToolCalls, lookupKV_setKV_ne, lookupKV_setKV_self]
  have lpr : lookupKV "_pruned" (redactAssistantToolCalls e (Json.obj kvs)) =
      some (Json.bool true) := by
    simp [redactAssistantToolCalls, lookupKV_setKV_ne, lookupKV_setKV_self]
  have lpt : lookupKV "_pruned_type" (redactAssistantToolCalls e (Json.obj kvs)) =
      some (Json.str "full") := by
    simp [redactAssistantToolCalls, lookupKV_setKV_self]
  conv_lhs => rw [redactAssistantToolCalls]
  rw [jset_jset_same, setKV_of_lookup_eq _ _ _ lmsg,
    setKV_of_lookup_eq _ _ _ lpr, setKV_of_lookup_eq _ _ _ lpt]

theorem redactToolResultMessage_idem (e : Entry) (kvs : List (String × Json)) :
    redactToolResultMessage (redactToolResultMessage e (Json.obj kvs))
      (getKV "message" (Json.obj [])
        (redactToolResultMessage e (Json.obj kvs))) =
    redactToolResultMessage e (Json.obj kvs) := by
  rw [getKV_message_redactToolResultMessage]
  have lmsg : lookupKV "message" (redactToolResultMessage e (Json.obj kvs)) =
      some (jset (Json.obj kvs) "content" (Json.str "[pruned]")) := by
    simp [redactToolResultMessage, lookupKV_setKV_ne, lookupKV_setKV_self]
  have lpr : lookupKV "_pruned" (redactToolResultMessage e (Json.obj kvs)) =
      some (Json.bool true) := by
    simp [redactToolResultMessage, lookupKV_setKV_ne, lookupKV_setKV_self]
  have lpt : lookupKV "_pruned_type" (redactToolResultMessage e (Json.obj kvs)) =
      some (Json.str "full") := by
    simp [redactToolResultMessage, lookupKV_setKV_self]
  conv_lhs => rw [redactToolResultMessage]
  rw [jset_jset_same, setKV_of_lookup_eq _ _ _ lmsg,
    setKV_of_lookup_eq _ _ _ lpr, setKV_of_lookup_eq _ _ _ lpt]

/- ### Stability of one full-prune step -/

theorem getKV_message_redactTool (e : Entry) (d : Json) :
    getKV "message" d (redactTool e) = getKV "message" d e := by
  simp [redactTool, getKV_setKV_ne]

theorem getKV_message_redactToolResult (e : Entry) (d : Json) :
    getKV "message" d (redactToolResult e) = getKV "message" d e := by
  simp [redactToolResult, getKV_setKV_ne]

theorem isToolIndex_eq_of (e p : Entry)
    (ht : getKV "type" (Json.str "") p = getKV "type" (Json.str "") e)
    (hr : jget (getKV "message" (Json.obj []) p) "role" (Json.str "") =
      jget (getKV "message" (Json.obj []) e) "role" (Json.str "")) :
    isToolIndex p = isToolIndex e := by
  simp [isToolIndex, ht, hr]

theorem markEntry_eq_self_of_not_arr (e : Entry)
    (h : ∀ items, jget (getKV "message" (Json.obj []) e) "content" (Json.arr []) ≠
      Json.arr items) :
    markEntry e = e := by
  by_cases h3 : (getKV "type" (Json.str "") e).isStrEq "message" = true
  · rcases hc : jget (getKV "message" (Json.obj []) e) "content" (Json.arr []) with
      _ | b | n | s | items | kvs
    · simp [markEntry, h3, hc]
    · simp [markEntry, h3, hc]
    · simp [markEntry, h3, hc]
    · simp [markEntry, h3, hc]
    · exact absurd hc (h items)
    · simp [markEntry, h3, hc]
  · exact markEntry_not_message e (by simpa using h3)

theorem isStrEq_jget_role_obj (msg : Json) (s : String) (hs : s ≠ "")
    (h : (jget msg "role" (Json.str "")).isStrEq s = true) :
    ∃ kvs, msg = Json.obj kvs := by
  cases msg <;> simp_all [jget, Json.isStrEq]

/-- One step of the full prune is stable: applied to an entry that the
marking pass has already processed, its output is (1) untouched by a second
marking pass, (2) classified as a tool index exactly as its input was, and
(3) a fixed point of the same prune step producing the same count. -/
theorem fullPrune_stable (K : List Nat) (i : Nat) (m : Entry)
    (hmark : markEntry m = m)
    (hflags : (getKV "type" (Json.str "") m).isStrEq "message" = true →
      ∀ items, jget (getKV "message" (Json.obj []) m) "content" (Json.arr []) =
          Json.arr items →
        (items.any itemIsTC = true →
          lookupKV "_has_tool_calls" m = some (Json.bool true)) ∧
        (items.any itemIsTR = true →
          lookupKV "_has_tool_results" m = some (Json.bool true))) :
    markEntry (fullPrune K i m).1 = (fullPrune K i m).1 ∧
    isToolIndex (fullPrune K i m).1 = isToolIndex m ∧
    fullPrune K i (fullPrune K i m).1 = fullPrune K i m := by
  by_cases h1 : (getKV "type" (Json.str "") m).isStrEq "tool" = true
  · rw [fullPrune_tool K i m h1]
    cases hk : K.contains i
    · have hknot : ¬(K.contains i = true) := by rw [hk]; simp
      simp only [Bool.false_eq_true, if_false]
      have htp : getKV "type" (Json.str "") (redactTool m) = Json.str "tool" :=
        typeOf_redactTool m
      have htm : getKV "type" (Json.str "") m = Json.str "tool" :=
        (Json.isStrEq_iff _ _).mp h1
      refine ⟨markEntry_not_message _ (by rw [htp]; rfl), ?_, ?_⟩
      · exact isToolIndex_eq_of m _ (by rw [htp, htm])
          (by rw [getKV_message_redactTool])
      · show fullPrune K i (redactTool m) = (redactTool m, 1)
        rw [fullPrune_tool K i _ (by rw [htp]; rfl), if_neg hknot, redactTool_idem]
    · rw [if_pos rfl]
      refine ⟨hmark, rfl, ?_⟩
      show fullPrune K i m = (m, 0)
      rw [fullPrune_tool K i m h1, if_pos hk]
  · by_cases h2 : (getKV "type" (Json.str "") m).isStrEq "tool_result" = true
    · have h1f : (getKV "type" (Json.str "") m).isStrEq "tool" = false := by
        simpa using h1
      rw [fullPrune_tool_result K i m h1f h2]
      cases hk : K.contains i
      · have hknot : ¬(K.contains i = true) := by rw [hk]; simp
        simp only [Bool.false_eq_true, if_false]
        have htp : getKV "type" (Json.str "") (redactToolResult m) =
            Json.str "tool_result" := typeOf_redactToolResult m
        have htm : getKV "type" (Json.str "") m = Json.str "tool_result" :=
          (Json.isStrEq_iff _ _).mp h2
        refine ⟨markEntry_not_message _ (by rw [htp]; rfl), ?_, ?_⟩
        · exact isToolIndex_eq_of m _ (by rw [htp, htm])
            (by rw [getKV_message_redactToolResult])
        · show fullPrune K i (redactToolResult m) = (redactToolResult m, 1)
          rw [fullPrune_tool_result K i _ (by rw [htp]; rfl) (by rw [htp]; rfl),
            if_neg hknot, redactToolResult_idem]
      · rw [if_pos rfl]
        refine ⟨hmark, rfl, ?_⟩
        show fullPrune K i m = (m, 0)
        rw [fullPrune_tool_result K i m h1f h2, if_pos hk]
    · by_cases h3 : (getKV "type" (Json.str "") m).isStrEq "message" = true
      · have h1f : (getKV "type" (Json.str "") m).isStrEq "tool" = false := by
          simpa using h1
        have h2f : (getKV "type" (Json.str "") m).isStrEq "tool_result" = false := by
          simpa using h2
        by_cases hc : ((jget (getKV "message" (Json.obj []) m) "role"
              (Json.str "")).isStrEq "assistant" &&
            (jget (getKV "message" (Json.obj []) m) "tool_calls"
              Json.null).pyTruthy) = true
        · have hc2 := hc
          rw [Bool.and_eq_true] at hc2
          obtain ⟨kvs, hobj⟩ := pyTruthy_jget_obj _ "tool_calls" hc2.2
          rw [fullPrune_message_assistant K i m h1f h2f h3 hc, hobj]
          cases hk : K.contains i
          · have hknot : ¬(K.contains i = true) := by rw [hk]; simp
            simp only [Bool.false_eq_true, if_false]
            have htp : getKV "type" (Json.str "")
                (redactAssistantToolCalls m (Json.obj kvs)) =
                getKV "type" (Json.str "") m :=
              typeOf_redactAssistantToolCalls m _
            have hmsgp : getKV "message" (Json.obj [])
                (redactAssistantToolCalls m (Json.obj kvs)) =
                jset (Json.obj kvs) "tool_calls" (Json.arr [prunedToolCallStub]) :=
              getKV_message_redactAssistant m _
            have hrolep : jget (getKV "message" (Json.obj [])
                (redactAssistantToolCalls m (Json.obj kvs))) "role" (Json.str "") =
                jget (getKV "message" (Json.obj []) m) "role" (Json.str "") := by
              rw [hmsgp, jget_jset_ne _ _ _ _ _ (by simp), hobj]
            have htcp : jget (getKV "message" (Json.obj [])
                (redactAssistantToolCalls m (Json.obj kvs))) "tool_calls"
                Json.null = Json.arr [prunedToolCallStub] := by
              rw [hmsgp]
              exact jget_jset_self _ _ _ _ ⟨kvs, rfl⟩
            have hcp : ((jget (getKV "message" (Json.obj [])
                  (redactAssistantToolCalls m (Json.obj kvs))) "role"
                  (Json.str "")).isStrEq "assistant" &&
                (jget (getKV "message" (Json.obj [])
                  (redactAssistantToolCalls m (Json.obj kvs))) "tool_calls"
                  Json.null).pyTruthy) = true := by
              rw [hrolep, htcp]
              simp [hc2.1, Json.pyTruthy]
            have hcontp : jget (getKV "message" (Json.obj [])
                (redactAssistantToolCalls m (Json.obj kvs))) "content"
                (Json.arr []) =
                jget (getKV "message" (Json.obj []) m) "content" (Json.arr []) := by
              rw [hmsgp, jget_jset_ne _ _ _ _ _ (by simp), hobj]
            refine ⟨?_, ?_, ?_⟩
            · rcases hcm : jget (getKV "message" (Json.obj []) m) "content"
                  (Json.arr []) with _ | b | n | s | items | kvs2
              · exact markEntry_eq_self_of_not_arr _ (by rw [hcontp, hcm]; simp)
              · exact markEntry_eq_self_of_not_arr _ (by rw [hcontp, hcm]; simp)
              · exact markEntry_eq_self_of_not_arr _ (by rw [hcontp, hcm]; simp)
              · exact markEntry_eq_self_of_not_arr _ (by rw [hcontp, hcm]; simp)
              · rw [markEntry_arr _ items (by rw [htp]; exact h3)
                  (by rw [hcontp]; exact hcm)]
                refine foldl_flagStep_eq_self items _ ?_ ?_
                · intro ha
                  have hf := (hflags h3 items hcm).1 ha
                  simp [redactAssistantToolCalls, lookupKV_setKV_ne, hf]
                · intro ha
                  have hf := (hflags h3 items hcm).2 ha
                  simp [redactAssistantToolCalls, lookupKV_setKV_ne, hf]
              · exact markEntry_eq_self_of_not_arr _ (by rw [hcontp, hcm]; simp)
            · exact isToolIndex_eq_of m _ (by rw [htp]) hrolep
            · show fullPrune K i (redactAssistantToolCalls m (Json.obj kvs)) =
                (redactAssistantToolCalls m (Json.obj kvs), 1)
              rw [fullPrune_message_assistant K i _ (by rw [htp]; exact h1f)
                (by rw [htp]; exact h2f) (by rw [htp]; exact h3) hcp,
                if_neg hknot, redactAssistant_idem]
          · rw [if_pos rfl]
            refine ⟨hmark, rfl, ?_⟩
            show fullPrune K i m = (m, 0)
            rw [fullPrune_message_assistant K i m h1f h2f h3 hc, if_pos hk]
        · have hcf : ((jget (getKV "message" (Json.obj []) m) "role"
                (Json.str "")).isStrEq "assistant" &&
              (jget (getKV "message" (Json.obj []) m) "tool_calls"
                Json.null).pyTruthy) = false := by
            simpa using hc
          by_cases hr : (jget (getKV "message" (Json.obj []) m) "role"
              (Json.str "")).isStrEq "toolResult" = true
          · obtain ⟨kvs, hobj⟩ :=
              isStrEq_jget_role_obj _ "toolResult" (by simp) hr
            have hrole_m : jget (getKV "message" (Json.obj []) m) "role"
                (Json.str "") = Json.str "toolResult" :=
              (Json.isStrEq_iff _ _).mp hr
            rw [fullPrune_message_toolResult K i m h1f h2f h3 hcf hr, hobj]
            cases hk : K.contains i
            · have hknot : ¬(K.contains i = true) := by rw [hk]; simp
              simp only [Bool.false_eq_true, if_false]
              have htp : getKV "type" (Json.str "")
                  (redactToolResultMessage m (Json.obj kvs)) =
                  getKV "type" (Json.str "") m :=
                typeOf_redactToolResultMessage m _
              have hmsgp : getKV "message" (Json.obj [])
                  (redactToolResultMessage m (Json.obj kvs)) =
                  jset (Json.obj kvs) "content" (Json.str "[pruned]") :=
                getKV_message_redactToolResultMessage m _
              have hrolep : jget (getKV "message" (Json.obj [])
                  (redactToolResultMessage m (Json.obj kvs))) "role"
                  (Json.str "") =
                  jget (getKV "message" (Json.obj []) m) "role" (Json.str "") := by
                rw [hmsgp, jget_jset_ne _ _ _ _ _ (by simp), hobj]
              have hcontp : jget (getKV "message" (Json.obj [])
                  (redactToolResultMessage m (Json.obj kvs))) "content"
                  (Json.arr []) = Json.str "[pruned]" := by
                rw [hmsgp]
                exact jget_jset_self _ _ _ _ ⟨kvs, rfl⟩
              refine ⟨?_, ?_, ?_⟩
              · exact markEntry_eq_self_of_not_arr _ (by rw [hcontp]; simp)
              · exact isToolIndex_eq_of m _ (by rw [htp]) hrolep
              · have hcfp : ((jget (getKV "message" (Json.obj [])
                      (redactToolResultMessage m (Json.obj kvs))) "role"
                      (Json.str "")).isStrEq "assistant" &&
                    (jget (getKV "message" (Json.obj [])
                      (redactToolResultMessage m (Json.obj kvs))) "tool_calls"
                      Json.null).pyTruthy) = false := by
                  rw [hrolep, hrole_m]
                  simp [Json.isStrEq]
                have hrp : (jget (getKV "message" (Json.obj [])
                    (redactToolResultMessage m (Json.obj kvs))) "role"
                    (Json.str "")).isStrEq "toolResult" = true := by
                  rw [hrolep, hrole_m]
                  simp [Json.isStrEq]
                show fullPrune K i (redactToolResultMessage m (Json.obj kvs)) =
                  (redactToolResultMessage m (Json.obj kvs), 1)
                rw [fullPrune_message_toolResult K i _ (by rw [htp]; exact h1f)
                  (by rw [htp]; exact h2f) (by rw [htp]; exact h3) hcfp hrp,
                  if_neg hknot, redactToolResultMessage_idem]
            · rw [if_pos rfl]
              refine ⟨hmark, rfl, ?_⟩
              show fullPrune K i m = (m, 0)
              rw [fullPrune_message_toolResult K i m h1f h2f h3 hcf hr, if_pos hk]
          · have hrf : (jget (getKV "message" (Json.obj []) m) "role"
                (Json.str "")).isStrEq "toolResult" = false := by
              simpa using hr
            rw [fullPrune_message_other K i m h1f h2f h3 hcf hrf]
            exact ⟨hmark, rfl, fullPrune_message_other K i m h1f h2f h3 hcf hrf⟩
      · have h1f : (getKV "type" (Json.str "") m).isStrEq "tool" = false := by
          simpa using h1
        have h2f : (getKV "type" (Json.str "") m).isStrEq "tool_result" = false := by
          simpa using h2
        have h3f : (getKV "type" (Json.str "") m).isStrEq "message" = false := by
          simpa using h3
        rw [fullPrune_other K i m h1f h2f h3f]
        exact ⟨hmark, rfl, fullPrune_other K i m h1f h2f h3f⟩

/-- The output of the marking pass satisfies the flag conditions that
`fullPrune_stable` requires. -/
theorem markEntry_flags (e : Entry) :
    (getKV "type" (Json.str "") (markEntry e)).isStrEq "message" = true →
    ∀ items, jget (getKV "message" (Json.obj []) (markEntry e)) "content"
        (Json.arr []) = Json.arr items →
      (items.any itemIsTC = true →
        lookupKV "_has_tool_calls" (markEntry e) = some (Json.bool true)) ∧
      (items.any itemIsTR = true →
        lookupKV "_has_tool_results" (markEntry e) = some (Json.bool true)) := by
  intro h3 items hc
  have htm : getKV "type" (Json.str "") (markEntry e) =
      getKV "type" (Json.str "") e := typeOf_markEntry e
  rw [htm] at h3
  rcases hce : jget (getKV "message" (Json.obj []) e) "content" (Json.arr []) with
    _ | b | n | s | items0 | kvs
  · rw [markEntry_eq_self_of_not_arr e (by rw [hce]; simp)] at hc
    rw [hce] at hc
    cases hc
  · rw [markEntry_eq_self_of_not_arr e (by rw [hce]; simp)] at hc
    rw [hce] at hc
    cases hc
  · rw [markEntry_eq_self_of_not_arr e (by rw [hce]; simp)] at hc
    rw [hce] at hc
    cases hc
  · rw [markEntry_eq_self_of_not_arr e (by rw [hce]; simp)] at hc
    rw [hce] at hc
    cases hc
  · have hm := markEntry_arr e items0 h3 hce
    rw [hm] at hc ⊢
    have hmsg : getKV "message" (Json.obj []) (items0.foldl flagStep e) =
        getKV "message" (Json.obj []) e := by
      simp [getKV, lookup_foldl_flagStep_other]
    rw [hmsg, hce] at hc
    cases hc
    constructor
    · intro ha
      rw [lookup_foldl_flagStep_tc, if_pos ha]
    · intro ha
      rw [lookup_foldl_flagStep_tr, if_pos ha]
  · rw [markEntry_eq_self_of_not_arr e (by rw [hce]; simp)] at hc
    rw [hce] at hc
    cases hc

/-- List-level consequence of `fullPrune_stable`: the full-prune rewrite of
a marked entry list is a fixed point of re-marking, yields the same
tool-index list, and is a fixed point of the rewrite itself (with the same
count). -/
theorem mapCount_fullPrune_stable (K : List Nat) (n : Nat) (es : List Entry) :
    ((mapCount (fullPrune K) n (es.map markEntry)).1).map markEntry =
      (mapCount (fullPrune K) n (es.map markEntry)).1 ∧
    toolIndicesFrom n ((mapCount (fullPrune K) n (es.map markEntry)).1) =
      toolIndicesFrom n (es.map markEntry) ∧
    mapCount (fullPrune K) n ((mapCount (fullPrune K) n (es.map markEntry)).1) =
      mapCount (fullPrune K) n (es.map markEntry) := by
  induction es generalizing n with
  | nil => simp [mapCount, toolIndicesFrom]
  | cons e es ih =>
    obtain ⟨iha, ihb, ihc⟩ := ih (n + 1)
    obtain ⟨sa, sb, sc⟩ := fullPrune_stable K n (markEntry e)
      (markEntry_markEntry e) (markEntry_flags e)
    refine ⟨?_, ?_, ?_⟩
    · simp only [List.map_cons, mapCount]
      rw [sa, iha]
    · simp only [List.map_cons, mapCount, toolIndicesFrom]
      rw [sb]
      cases hti : isToolIndex (markEntry e) <;> simp [hti, ihb]
    · simp only [List.map_cons, mapCount]
      rw [sc, ihc]

/-- C3 amended: running the full prune twice with the same
`keep_recent > 0` returns exactly the same rewritten records and the same
`entries_pruned` count as the first run — in particular the file does not
shrink further — but that repeated count equals the number of re-redacted
tool records, not 0 (see `c3_second_full_prune_counts_again`). -/
theorem c3_full_prune_idempotent_amended (keep_recent : Int)
    (entries : List Entry) (h : 0 < keep_recent) :
    prune_session_entries keep_recent
        ((prune_session_entries keep_recent entries).1) =
      prune_session_entries keep_recent entries := by
  have hne : ¬(keep_recent = -1) := by omega
  simp only [prune_session_entries, if_neg hne, if_pos h]
  obtain ⟨ha, hb, hc⟩ := mapCount_fullPrune_stable
    (lastN keep_recent.toNat (toolIndicesFrom 0 (entries.map markEntry))) 0 entries
  rw [ha, hb, hc]

/-- Witness for the amended C3 at a concrete session: two `tool_result`
records pruned with `keep_recent = 1`. -/
theorem c3_full_prune_idempotent_amended_witness :
    prune_session_entries 1
        ((prune_session_entries 1 [toolResultRec "x", toolResultRec "y"]).1) =
      prune_session_entries 1 [toolResultRec "x", toolResultRec "y"] :=
  c3_full_prune_idempotent_amended 1 [toolResultRec "x", toolResultRec "y"]
    (by norm_num)

/- ### C7: ten tool_result records, keep_recent = 3 -/

theorem markEntry_tool_result (e : Entry)
    (h : getKV "type" (Json.str "") e = Json.str "tool_result") :
    markEntry e = e :=
  markEntry_not_message e (by rw [h]; rfl)

theorem isToolIndex_tool_result (e : Entry)
    (h : getKV "type" (Json.str "") e = Json.str "tool_result") :
    isToolIndex e = true := by
  simp [isToolIndex, h, Json.isStrEq]

theorem fullPrune_tr_kept (K : List Nat) (i : Nat) (e : Entry)
    (h : getKV "type" (Json.str "") e = Json.str "tool_result")
    (hk : K.contains i = true) :
    fullPrune K i e = (e, 0) := by
  rw [fullPrune_tool_result K i e (by rw [h]; rfl) (by rw [h]; rfl), if_pos hk]

theorem fullPrune_tr_pruned (K : List Nat) (i : Nat) (e : Entry)
    (h : getKV "type" (Json.str "") e = Json.str "tool_result")
    (hk : K.contains i = false) :
    fullPrune K i e = (redactToolResult e, 1) := by
  rw [fullPrune_tool_result K i e (by rw [h]; rfl) (by rw [h]; rfl),
    if_neg (by rw [hk]; simp)]

/-- C7: a session of exactly ten top-level `tool_result` records pruned
with `keep_recent = 3` reports `entries_pruned = 7`; the first seven
records are replaced by their redacted forms (content `"[pruned]"`, flagged
`_pruned`) and the last three are kept exactly as parsed. -/
theorem c7_ten_tool_results_keep_three
    (e0 e1 e2 e3 e4 e5 e6 e7 e8 e9 : Entry)
    (h0 : getKV "type" (Json.str "") e0 = Json.str "tool_result")
    (h1 : getKV "type" (Json.str "") e1 = Json.str "tool_result")
    (h2 : getKV "type" (Json.str "") e2 = Json.str "tool_result")
    (h3 : getKV "type" (Json.str "") e3 = Json.str "tool_result")
    (h4 : getKV "type" (Json.str "") e4 = Json.str "tool_result")
    (h5 : getKV "type" (Json.str "") e5 = Json.str "tool_result")
    (h6 : getKV "type" (Json.str "") e6 = Json.str "tool_result")
    (h7 : getKV "type" (Json.str "") e7 = Json.str "tool_result")
    (h8 : getKV "type" (Json.str "") e8 = Json.str "tool_result")
    (h9 : getKV "type" (Json.str "") e9 = Json.str "tool_result") :
    prune_session_entries 3 [e0, e1, e2, e3, e4, e5, e6, e7, e8, e9] =
      ([redactToolResult e0, redactToolResult e1, redactToolResult e2,
        redactToolResult e3, redactToolResult e4, redactToolResult e5,
        redactToolResult e6, e7, e8, e9], 7) ∧
    (∀ e : Entry,
      getKV "content" Json.null (redactToolResult e) = Json.str "[pruned]" ∧
      getKV "_pruned" Json.null (redactToolResult e) = Json.bool true) := by
  constructor
  · have hmap : List.map markEntry [e0, e1, e2, e3, e4, e5, e6, e7, e8, e9] =
        [e0, e1, e2, e3, e4, e5, e6, e7, e8, e9] := by
      simp only [List.map_cons, List.map_nil, markEntry_tool_result e0 h0,
        markEntry_tool_result e1 h1, markEntry_tool_result e2 h2,
        markEntry_tool_result e3 h3, markEntry_tool_result e4 h4,
        markEntry_tool_result e5 h5, markEntry_tool_result e6 h6,
        markEntry_tool_result e7 h7, markEntry_tool_result e8 h8,
        markEntry_tool_result e9 h9]
    have hti : toolIndicesFrom 0 [e0, e1, e2, e3, e4, e5, e6, e7, e8, e9] =
        [0, 1, 2, 3, 4, 5, 6, 7, 8, 9] := by
      simp [toolIndicesFrom, isToolIndex_tool_result e0 h0,
        isToolIndex_tool_result e1 h1, isToolIndex_tool_result e2 h2,
        isToolIndex_tool_result e3 h3, isToolIndex_tool_result e4 h4,
        isToolIndex_tool_result e5 h5, isToolIndex_tool_result e6 h6,
        isToolIndex_tool_result e7 h7, isToolIndex_tool_result e8 h8,
        isToolIndex_tool_result e9 h9]
    have hlast : lastN (Int.toNat 3) [0, 1, 2, 3, 4, 5, 6, 7, 8, 9] = [7, 8, 9] := rfl
    simp only [prune_session_entries]
    rw [if_neg (by norm_num), hmap]
    norm_num
    rw [hti, hlast]
    simp only [mapCount,
      fullPrune_tr_pruned [7, 8, 9] 0 e0 h0 rfl,
      fullPrune_tr_pruned [7, 8, 9] 1 e1 h1 rfl,
      fullPrune_tr_pruned [7, 8, 9] 2 e2 h2 rfl,
      fullPrune_tr_pruned [7, 8, 9] 3 e3 h3 rfl,
      fullPrune_tr_pruned [7, 8, 9] 4 e4 h4 rfl,
      fullPrune_tr_pruned [7, 8, 9] 5 e5 h5 rfl,
      fullPrune_tr_pruned [7, 8, 9] 6 e6 h6 rfl,
      fullPrune_tr_kept [7, 8, 9] 7 e7 h7 rfl,
      fullPrune_tr_kept [7, 8, 9] 8 e8 h8 rfl,
      fullPrune_tr_kept [7, 8, 9] 9 e9 h9 rfl]
  · intro e
    constructor
    · simp [redactToolResult, getKV_setKV_ne, getKV_setKV_self]
    · simp [redactToolResult, getKV_setKV_ne, getKV_setKV_self]

/-- Witness for C7 at a fully concrete session file. -/
theorem c7_ten_tool_results_keep_three_witness :
    prune_session_entries 3 [toolResultRec "r0", toolResultRec "r1",
        toolResultRec "r2", toolResultRec "r3", toolResultRec "r4",
        toolResultRec "r5", toolResultRec "r6", toolResultRec "r7",
        toolResultRec "r8", toolResultRec "r9"] =
      ([redactToolResult (toolResultRec "r0"), redactToolResult (toolResultRec "r1"),
        redactToolResult (toolResultRec "r2"), redactToolResult (toolResultRec "r3"),
        redactToolResult (toolResultRec "r4"), redactToolResult (toolResultRec "r5"),
        redactToolResult (toolResultRec "r6"), toolResultRec "r7",
        toolResultRec "r8", toolResultRec "r9"], 7) :=
  (c7_ten_tool_results_keep_three (toolResultRec "r0") (toolResultRec "r1")
    (toolResultRec "r2") (toolResultRec "r3") (toolResultRec "r4")
    (toolResultRec "r5") (toolResultRec "r6") (toolResultRec "r7")
    (toolResultRec "r8") (toolResultRec "r9")
    rfl rfl rfl rfl rfl rfl rfl rfl rfl rfl).1

/-- C5 counterexample: the analysis (and summary) reader does not keep a
placeholder for a line that fails JSON decoding — it drops the line, so a
two-non-empty-line file yields a single record, violating "one record per
non-empty line ... never dropped ... in every component". -/
theorem c5_analysis_drops_malformed_lines :
    analyzeParse [SrcLine.ok (toolResultRec "good"),
        SrcLine.malformed "not json"] = [toolResultRec "good"] ∧
    (analyzeParse [SrcLine.ok (toolResultRec "good"),
        SrcLine.malformed "not json"]).length = 1 ∧
    nonBlankCount [SrcLine.ok (toolResultRec "good"),
        SrcLine.malformed "not json"] = 2 := by
  refine ⟨rfl, rfl, rfl⟩

/-- C5 amended: prune and edit parse one record per non-empty line in file
order, turning each undecodable line into a `{"_raw": line}` placeholder
(never dropped, never raising); analysis and summary generation instead
silently skip undecodable lines (never raising) and keep exactly the
decodable records, in file order. -/
theorem c5_parse_amended (lines : List SrcLine) :
    (pruneParse lines).length = nonBlankCount lines ∧
    analyzeParse lines = lines.filterMap SrcLine.decoded ∧
    (∀ raw, SrcLine.malformed raw ∈ lines →
      [("_raw", Json.str raw)] ∈ pruneParse lines) := by
  induction lines with
  | nil => simp [pruneParse, nonBlankCount, analyzeParse]
  | cons l rest ih =>
    obtain ⟨ih1, ih2, ih3⟩ := ih
    cases l with
    | blank =>
      refine ⟨by simpa [pruneParse, nonBlankCount] using ih1,
        by simpa [analyzeParse, SrcLine.decoded] using ih2, ?_⟩
      intro raw h
      rcases List.mem_cons.mp h with h | h
      · cases h
      · simpa [pruneParse] using ih3 raw h
    | ok e =>
      refine ⟨by simpa [pruneParse, nonBlankCount] using ih1,
        by simpa [analyzeParse, SrcLine.decoded] using ih2, ?_⟩
      intro raw h
      rcases List.mem_cons.mp h with h | h
      · cases h
      · simp only [pruneParse]
        exact List.mem_cons_of_mem _ (ih3 raw h)
    | malformed raw0 =>
      refine ⟨by simpa [pruneParse, nonBlankCount] using ih1,
        by simpa [analyzeParse, SrcLine.decoded] using ih2, ?_⟩
      intro raw h
      rcases List.mem_cons.mp h with h | h
      · cases h
        simp [pruneParse]
      · simp only [pruneParse]
        exact List.mem_cons_of_mem _ (ih3 raw h)

/-- Witness for the amended C5 at a concrete file with one malformed line. -/
theorem c5_parse_amended_witness :
    (pruneParse [SrcLine.malformed "oops"]).length =
      nonBlankCount [SrcLine.malformed "oops"] ∧
    [("_raw", Json.str "oops")] ∈ pruneParse [SrcLine.malformed "oops"] :=
  ⟨(c5_parse_amended [SrcLine.malformed "oops"]).1,
   (c5_parse_amended [SrcLine.malformed "oops"]).2.2 "oops" (by simp)⟩

/-- C6 (code bug): the files [b, a, b] and [b, a] produce the identical
sequence of distinct set insertions, so `list(models)[-1]` — a function of
the set alone — returns the same "current model" for both; but the last
model encountered in file order is "b" for the first file and "a" for the
second, so no set-based implementation can satisfy the claim (the model set
itself is extracted correctly).  Under the insertion-order model the code
returns "a" for [b, a, b] where the claim (and the source's own comment
"# Last model = current", main.py:280) requires "b". -/
theorem c6_current_model_not_file_order :
    (analyze_jsonl_entries
        [messageModelRec "b", messageModelRec "a", messageModelRec "b"]).models =
      [Json.str "b", Json.str "a"] ∧
    (analyze_jsonl_entries [messageModelRec "b", messageModelRec "a"]).models =
      [Json.str "b", Json.str "a"] ∧
    analyze_current_model
        [messageModelRec "b", messageModelRec "a", messageModelRec "b"] =
      analyze_current_model [messageModelRec "b", messageModelRec "a"] ∧
    analyze_current_model
        [messageModelRec "b", messageModelRec "a", messageModelRec "b"] =
      some (Json.str "a") ∧
    lastModelInFileOrder
        [messageModelRec "b", messageModelRec "a", messageModelRec "b"] =
      some (Json.str "b") ∧
    lastModelInFileOrder [messageModelRec "b", messageModelRec "a"] =
      some (Json.str "a") := by
  refine ⟨rfl, rfl, rfl, rfl, rfl, rfl⟩

/-- C10 (code bug): a session id consisting of allowed characters plus one
trailing newline passes sanitisation — Python's `$` matches before a final
newline and the explicit character blacklist does not include newline — so
the operation proceeds to filesystem access with a value containing a
character outside [A-Za-z0-9_-], contradicting the claim and the function's
own docstring ("Only allows alphanumeric characters, hyphens, and
underscores").  Ordinary traversal attempts and empty values are rejected
as claimed. -/
theorem c10_sanitize_accepts_trailing_newline :
    sanitize_path_component "abc\n" = Except.ok "abc\n" ∧
    "abc\n".data.all isAllowedChar = false ∧
    sanitize_path_component "ok-id_1" = Except.ok "ok-id_1" ∧
    sanitize_path_component "" = Except.error 400 ∧
    sanitize_path_component "../../etc" = Except.error 400 ∧
    sanitize_path_component "a/b" = Except.error 400 ∧
    sanitize_path_component "a.b" = Except.error 400 := by
  refine ⟨rfl, rfl, rfl, rfl, rfl, rfl, rfl⟩

/-- C4 (code bug): whenever sessions.json exists in the dict format that
the rest of the code itself writes, the restore's index re-registration
raises `AttributeError` (HTTP 500) instead of appending a `restored: true`
entry and reporting success — both for an empty index (dict has no
`.append`) and for a non-empty one (iterating a dict yields key strings,
which have no `.get`).  Only the list format the code wrongly assumes would
take the intended append path. -/
theorem c4_restore_index_readd_raises (createdAt : String) :
    restore_readd_index (Json.obj []) "sess1" "agentA" createdAt =
      Except.error "AttributeError: append" ∧
    restore_readd_index
        (Json.obj [("key1", Json.obj [("sessionId", Json.str "other")])])
        "sess1" "agentA" createdAt = Except.error "AttributeError: get" ∧
    restore_readd_index (Json.arr []) "sess1" "agentA" createdAt =
      Except.ok (Json.arr [restoredIndexEntry "sess1" "agentA" createdAt]) := by
  refine ⟨rfl, rfl, rfl⟩

/-- C9 (code bug): on a session whose only record is an assistant message
with PLAIN-STRING heartbeat content, summary generation raises `NameError`
(HTTP 500) instead of completing: `has_meaningful_content` is first
assigned only inside `if isinstance(content, list)` (main.py:542) but read
unconditionally at main.py:576.  For heartbeat-only messages with LIST
content (and user messages of either shape) the generator completes with
`meaningful_messages = 0`, `session_type = "chat"` and empty
insights/requests, as the claim describes. -/
theorem c9_summary_heartbeat_only :
    generate_session_summary [assistantHeartbeatStr] =
      Except.error "NameError: name has_meaningful_content is not defined" ∧
    generate_session_summary
        [assistantHeartbeatList, userHeartbeatList, userHeartbeatStr] =
      Except.ok {
        session_type := "chat", topics := [], tools_used := [],
        models_used := [], key_actions := [], user_requests := [],
        thinking_insights := [], errors := [], message_count := 3,
        user_messages := 2, meaningful_messages := 0, tool_calls := 0,
        has_git_commits := false, files_created := [], files_modified := [] } := by
  refine ⟨rfl, rfl⟩
